import Mathlib

/-!
Shallow embedding of the cc65 debug-info reader (`src/dbginfo/dbginfo.c`).

The embedding works at the record level: the token-level lexer and the
attribute loops of the `Parse*` functions are abstracted into per-kind
record structures whose fields are exactly the local variables those
functions accumulate, while every store, resolution pass, index
construction and query is translated statement by statement from the C
source.  Pointers into the by-id collections are represented by their
index (the handle-table reading of the id/pointer unions), `NULL` by
`none`, and the id/pointer unions by an explicit sum type `Ref`.
-/

/-- Machine width of the C `unsigned` / `cc65_addr` arithmetic.  The header
`dbginfo.h` that typedefs `cc65_addr` is not among the sources; we model
both `unsigned` and `cc65_addr` as 32-bit unsigned integers. -/
def W32 : Nat := 2 ^ 32

/-- C unsigned 32-bit addition. -/
def w32add (a b : Nat) : Nat := (a + b) % W32

/-- C unsigned 32-bit subtraction (two's complement wraparound). -/
def w32sub (a b : Nat) : Nat := (W32 + a - b) % W32

/-- Diagnostic severities passed to the `cc65_errorfunc` callback.
`ParseError` counts only `CC65_ERROR` into `D->Errors`. -/
inductive Severity where
  | warning : Severity
  | error : Severity
deriving DecidableEq, Repr

/-- One diagnostic delivered through the error callback. -/
structure Diag where
  sev : Severity
  msg : String
deriving DecidableEq, Repr

/-- Number of error-severity diagnostics in a list (the `D->Errors` counter). -/
def errCount (ds : List Diag) : Nat := ds.countP (fun d => d.sev == Severity.error)

/-- The id/pointer `union` used inside every record field that references
another record (`CollEntry` and the anonymous unions in the info structs).
`Ref.id none` is the stored id `CC65_INV_ID`; `Ref.ptr none` is a `NULL`
pointer; `Ref.ptr (some i)` is a pointer to slot `i` of the referenced
by-id collection. -/
inductive Ref where
  | id : Option Nat → Ref
  | ptr : Option Nat → Ref
deriving DecidableEq, Repr

/-- The two symbol types (`CC65_SYM_EQUATE` / `CC65_SYM_LABEL`). -/
inductive SymType where
  | equate : SymType
  | label : SymType
deriving DecidableEq, Repr

/-- Internally used file info struct (`struct FileInfo`).  Back-reference
collections hold indices of the pointed-to records. -/
structure FileInfo where
  Id : Nat
  Name : String
  Size : Nat
  MTime : Nat
  ModInfoByName : List Ref
  LineInfoByLine : List Nat
deriving DecidableEq, Repr

/-- Internally used library info struct (`struct LibInfo`). -/
structure LibInfo where
  Id : Nat
  Name : String
deriving DecidableEq, Repr

/-- Internally used line info struct (`struct LineInfo`); `Ty` is the C
field `Type` (a Lean keyword). -/
structure LineInfo where
  Id : Nat
  Line : Nat
  File : Ref
  Ty : Nat
  Count : Nat
  SpanInfoList : List Ref
deriving DecidableEq, Repr

/-- Internally used module info struct (`struct ModInfo`). -/
structure ModInfo where
  Id : Nat
  Name : String
  File : Ref
  Lib : Ref
  MainScope : Option Nat
  FileInfoByName : List Nat
  ScopeInfoByName : List Nat
deriving DecidableEq, Repr

/-- Internally used scope info struct (`struct ScopeInfo`). -/
structure ScopeInfo where
  Id : Nat
  Name : String
  Ty : Nat
  Size : Nat
  Mod : Ref
  Parent : Ref
  Label : Ref
  SpanInfoList : List Ref
deriving DecidableEq, Repr

/-- Internally used segment info struct (`struct SegInfo`). -/
structure SegInfo where
  Id : Nat
  Name : String
  Start : Nat
  Size : Nat
  OutputName : Option String
  OutputOffs : Nat
deriving DecidableEq, Repr

/-- Internally used span info struct (`struct SpanInfo`).  The two
back-reference collections start out as `NULL` pointers (`none`) and are
allocated on demand (`CollNew`). -/
structure SpanInfo where
  Id : Nat
  Start : Nat
  End : Nat
  Seg : Ref
  ScopeInfoList : Option (List Nat)
  LineInfoList : Option (List Nat)
deriving DecidableEq, Repr

/-- Internally used symbol info struct (`struct SymInfo`); `Value` is the C
`long` field. -/
structure SymInfo where
  Id : Nat
  Name : String
  Ty : SymType
  Value : Int
  Size : Nat
  Seg : Ref
  Scope : Ref
  Parent : Ref
deriving DecidableEq, Repr

/-- One entry of the span-by-address index (`struct SpanInfoListEntry`).
`Data` models the `void*` payload that holds either a single `SpanInfo*`
or an allocated array of them; the deposited spans are listed in deposit
order. -/
structure SpanInfoListEntry where
  Addr : Nat
  Count : Nat
  Data : List SpanInfo
deriving DecidableEq, Repr

/-- The span-by-address index (`struct SpanInfoList`); `Entries` is the C
field `List`. -/
structure SpanInfoList where
  Count : Nat
  Entries : List SpanInfoListEntry
deriving DecidableEq, Repr

/-- The database handed out as handle (`struct DbgInfo`).  By-id
collections are slot lists (`none` = `NULL` placeholder slot); by-name
collections hold indices of the records they point into. -/
structure DbgInfo where
  FileInfoById : List (Option FileInfo)
  LibInfoById : List (Option LibInfo)
  LineInfoById : List (Option LineInfo)
  ModInfoById : List (Option ModInfo)
  ScopeInfoById : List (Option ScopeInfo)
  SegInfoById : List (Option SegInfo)
  SpanInfoById : List (Option SpanInfo)
  SymInfoById : List (Option SymInfo)
  FileInfoByName : List Nat
  ModInfoByName : List Nat
  SegInfoByName : List Nat
  SymInfoByName : List Nat
  SymInfoByVal : List Nat
  SpanInfoByAddr : SpanInfoList
deriving DecidableEq, Repr

/-- NewDbgInfo: everything empty. -/
def emptyDbgInfo : DbgInfo :=
  { FileInfoById := [], LibInfoById := [], LineInfoById := [], ModInfoById := []
    ScopeInfoById := [], SegInfoById := [], SpanInfoById := [], SymInfoById := []
    FileInfoByName := [], ModInfoByName := [], SegInfoByName := []
    SymInfoByName := [], SymInfoByVal := []
    SpanInfoByAddr := { Count := 0, Entries := [] } }

/-- CollReplaceExpand: replace the slot if `i` is in range, otherwise grow
the collection, filling the gap with `NULL` placeholders, and put the item
at position `i`. -/
def collReplaceExpand {α : Type} (c : List (Option α)) (x : α) (i : Nat) :
    List (Option α) :=
  if i < c.length then c.set i (some x)
  else c ++ List.replicate (i - c.length) none ++ [some x]

/-- Parsed FILE record: the values accumulated by `ParseFile` when all
required attributes (id, mtime, mod, name, size) were present. -/
structure FileRec where
  id : Nat
  name : String
  size : Nat
  mtime : Nat
  modIds : List Nat
deriving DecidableEq, Repr

/-- Parsed LIBRARY record (`ParseLibrary`). -/
structure LibRec where
  id : Nat
  name : String
deriving DecidableEq, Repr

/-- Parsed LINE record (`ParseLine`); `ty` and `cnt` are the optional
`type` and `count` attributes with their C default values. -/
structure LineRec where
  id : Nat
  fileId : Nat
  line : Nat
  ty : Nat
  cnt : Nat
  spanIds : List Nat
deriving DecidableEq, Repr

/-- Parsed MODULE record (`ParseModule`); `libId = none` models the
`CC65_INV_ID` default of the optional `lib` attribute. -/
structure ModRec where
  id : Nat
  name : String
  fileId : Nat
  libId : Option Nat
deriving DecidableEq, Repr

/-- Parsed SCOPE record (`ParseScope`). -/
structure ScopeRec where
  id : Nat
  name : String
  ty : Nat
  size : Nat
  modId : Nat
  parentId : Option Nat
  labelId : Option Nat
  spanIds : List Nat
deriving DecidableEq, Repr

/-- Parsed SEGMENT record (`ParseSegment`); the two output attributes keep
their presence bits because `ParseSegment` checks that they are paired. -/
structure SegRec where
  id : Nat
  name : String
  start : Nat
  size : Nat
  outputName : Option String
  outputOffs : Option Nat
deriving DecidableEq, Repr

/-- Parsed SPAN record (`ParseSpan`). -/
structure SpanRec where
  id : Nat
  segId : Nat
  start : Nat
  size : Nat
deriving DecidableEq, Repr

/-- Parsed SYM record (`ParseSym`). -/
structure SymRec where
  id : Nat
  name : String
  ty : SymType
  value : Int
  size : Nat
  segId : Option Nat
  scopeId : Option Nat
  parentId : Option Nat
deriving DecidableEq, Repr

/-- One input line after the version line, as classified by the dispatch
loop of `cc65_read_dbginfo`.  `unknown` is a line starting with an
unrecognized keyword (warning, skipped); `malformed` stands for any record
line on which the record parser raised a recoverable error and resynced
(missing required attributes, bad tokens, unterminated strings, ...). -/
inductive Record where
  | file : FileRec → Record
  | lib : LibRec → Record
  | line : LineRec → Record
  | mod : ModRec → Record
  | scope : ScopeRec → Record
  | seg : SegRec → Record
  | span : SpanRec → Record
  | sym : SymRec → Record
  | unknown : Record
  | malformed : Record
deriving DecidableEq, Repr

/-- Store of a parsed FILE record (tail of `ParseFile`): module ids are
kept as ids in `ModInfoByName`, the record is placed at its id slot and a
pointer is appended to the name index. -/
def parseFileStore (db : DbgInfo) (r : FileRec) : DbgInfo × List Diag :=
  let F : FileInfo :=
    { Id := r.id, Name := r.name, Size := r.size, MTime := r.mtime
      ModInfoByName := r.modIds.map (fun m => Ref.id (some m))
      LineInfoByLine := [] }
  ({ db with FileInfoById := collReplaceExpand db.FileInfoById F r.id
             FileInfoByName := db.FileInfoByName ++ [r.id] }, [])

/-- Store of a parsed LIBRARY record (tail of `ParseLibrary`). -/
def parseLibStore (db : DbgInfo) (r : LibRec) : DbgInfo × List Diag :=
  let L : LibInfo := { Id := r.id, Name := r.name }
  ({ db with LibInfoById := collReplaceExpand db.LibInfoById L r.id }, [])

/-- Store of a parsed LINE record (tail of `ParseLine`): the file
reference holds the raw id, the span list is moved over as ids. -/
def parseLineStore (db : DbgInfo) (r : LineRec) : DbgInfo × List Diag :=
  let L : LineInfo :=
    { Id := r.id, Line := r.line, File := Ref.id (some r.fileId)
      Ty := r.ty, Count := r.cnt
      SpanInfoList := r.spanIds.map (fun s => Ref.id (some s)) }
  ({ db with LineInfoById := collReplaceExpand db.LineInfoById L r.id }, [])

/-- Store of a parsed MODULE record (tail of `ParseModule`). -/
def parseModStore (db : DbgInfo) (r : ModRec) : DbgInfo × List Diag :=
  let M : ModInfo :=
    { Id := r.id, Name := r.name, File := Ref.id (some r.fileId)
      Lib := Ref.id r.libId, MainScope := none
      FileInfoByName := [], ScopeInfoByName := [] }
  ({ db with ModInfoById := collReplaceExpand db.ModInfoById M r.id
             ModInfoByName := db.ModInfoByName ++ [r.id] }, [])

/-- Store of a parsed SCOPE record (tail of `ParseScope`). -/
def parseScopeStore (db : DbgInfo) (r : ScopeRec) : DbgInfo × List Diag :=
  let S : ScopeInfo :=
    { Id := r.id, Name := r.name, Ty := r.ty, Size := r.size
      Mod := Ref.id (some r.modId), Parent := Ref.id r.parentId
      Label := Ref.id r.labelId
      SpanInfoList := r.spanIds.map (fun s => Ref.id (some s)) }
  ({ db with ScopeInfoById := collReplaceExpand db.ScopeInfoById S r.id }, [])

/-- Store of a parsed SEGMENT record (tail of `ParseSegment`), including
the `outputname`/`outputoffs` pairing check and `NewSegInfo`'s rule that
an empty output name buffer stores a `NULL` name. -/
def parseSegStore (db : DbgInfo) (r : SegRec) : DbgInfo × List Diag :=
  if r.outputName.isSome ≠ r.outputOffs.isSome then
    (db, [⟨Severity.error, "Attributes outputname and outputoffs must be paired"⟩])
  else
    let S : SegInfo :=
      { Id := r.id, Name := r.name, Start := r.start, Size := r.size
        OutputName := match r.outputName with
          | some s => if s.length > 0 then some s else none
          | none => none
        OutputOffs := r.outputOffs.getD 0 }
    ({ db with SegInfoById := collReplaceExpand db.SegInfoById S r.id
               SegInfoByName := db.SegInfoByName ++ [r.id] }, [])

/-- Store of a parsed SPAN record (tail of `ParseSpan`):
`S->End = Start + Size - 1` in `cc65_addr` arithmetic, and the record
replaces whatever occupied its id slot.  No diagnostic is emitted on this
path. -/
def parseSpanStore (db : DbgInfo) (r : SpanRec) : DbgInfo × List Diag :=
  let S : SpanInfo :=
    { Id := r.id, Start := r.start, End := w32sub (w32add r.start r.size) 1
      Seg := Ref.id (some r.segId), ScopeInfoList := none, LineInfoList := none }
  ({ db with SpanInfoById := collReplaceExpand db.SpanInfoById S r.id }, [])

/-- Store of a parsed SYM record (tail of `ParseSym`), including the check
that exactly one of `scope` and `parent` is given.  On success the record
replaces its id slot and pointers are appended to both secondary symbol
indices; no diagnostic is emitted. -/
def parseSymStore (db : DbgInfo) (r : SymRec) : DbgInfo × List Diag :=
  if r.scopeId.isSome = r.parentId.isSome then
    (db, [⟨Severity.error, "Only one of parent, scope must be specified"⟩])
  else
    let S : SymInfo :=
      { Id := r.id, Name := r.name, Ty := r.ty, Value := r.value, Size := r.size
        Seg := Ref.id r.segId, Scope := Ref.id r.scopeId, Parent := Ref.id r.parentId }
    ({ db with SymInfoById := collReplaceExpand db.SymInfoById S r.id
               SymInfoByName := db.SymInfoByName ++ [r.id]
               SymInfoByVal := db.SymInfoByVal ++ [r.id] }, [])

/-- Dispatch of one input line inside the record loop of
`cc65_read_dbginfo`. -/
def parseRecord (db : DbgInfo) (r : Record) : DbgInfo × List Diag :=
  match r with
  | Record.file r => parseFileStore db r
  | Record.lib r => parseLibStore db r
  | Record.line r => parseLineStore db r
  | Record.mod r => parseModStore db r
  | Record.scope r => parseScopeStore db r
  | Record.seg r => parseSegStore db r
  | Record.span r => parseSpanStore db r
  | Record.sym r => parseSymStore db r
  | Record.unknown => (db, [⟨Severity.warning, "Unknown keyword - skipping"⟩])
  | Record.malformed => (db, [⟨Severity.error, "Parse error in record"⟩])

/-- The record loop of `cc65_read_dbginfo`: fold the stores over the input
lines, accumulating diagnostics in emission order. -/
def parseRecords (rs : List Record) : DbgInfo × List Diag :=
  rs.foldl (fun st r =>
    let next := parseRecord st.1 r
    (next.1, st.2 ++ next.2)) (emptyDbgInfo, [])

/-- One fill loop of `CreateSpanInfoList`
(`for (J = StartIndex, Addr = S->Start; Addr <= S->End; ++J, ++Addr)`):
apply the loop body `f Addr S` to the entry at index `J`, for
`k = S->End + 1 - S->Start` iterations.  `List.modify` leaves the list
unchanged on an out-of-range index (such an index is an out-of-bounds
write, hence undefined behavior, in the C original). -/
def fillRange (f : Nat → SpanInfo → SpanInfoListEntry → SpanInfoListEntry)
    (s : SpanInfo) (j a k : Nat) (arr : List SpanInfoListEntry) :
    List SpanInfoListEntry :=
  match k with
  | 0 => arr
  | k' + 1 => fillRange f s (j + 1) (a + 1) k' (List.modify (f a s) j arr)

/-- The loop state shared by steps 3 and 5 of `CreateSpanInfoList`:
`StartIndex`, the linear-range start `Start` and the running maximum
`End`. -/
structure WalkSt where
  StartIndex : Nat
  Start : Nat
  End : Nat
deriving DecidableEq, Repr

/-- State update at the head of the steps 3/5 loop body: determine the
start index of the next range from whether the span starts inside the
already known linear range. -/
def stepWalk (w : WalkSt) (s : SpanInfo) : WalkSt :=
  if s.Start ≤ w.End then
    { StartIndex := w32add w.StartIndex (w32sub s.Start w.Start)
      Start := s.Start
      End := if s.End > w.End then s.End else w.End }
  else
    { StartIndex := w32add w.StartIndex (w32add (w32sub w.End w.Start) 1)
      Start := s.Start
      End := s.End }

/-- Loop of steps 3/5 of `CreateSpanInfoList` over the spans after the
first one. -/
def fillPassAux (f : Nat → SpanInfo → SpanInfoListEntry → SpanInfoListEntry)
    (w : WalkSt) : List SpanInfo → List SpanInfoListEntry → List SpanInfoListEntry
  | [], arr => arr
  | s :: rest, arr =>
      let w' := stepWalk w s
      fillPassAux f w' rest (fillRange f s w'.StartIndex s.Start (s.End + 1 - s.Start) arr)

/-- One full pass (step 3 or step 5) of `CreateSpanInfoList`: handle the
first span with `StartIndex = 0`, then loop over the rest. -/
def fillPass (f : Nat → SpanInfo → SpanInfoListEntry → SpanInfoListEntry)
    (spans : List SpanInfo) (arr : List SpanInfoListEntry) :
    List SpanInfoListEntry :=
  match spans with
  | [] => arr
  | s0 :: rest =>
      fillPassAux f { StartIndex := 0, Start := s0.Start, End := s0.End } rest
        (fillRange f s0 0 s0.Start (s0.End + 1 - s0.Start) arr)

/-- Loop of step 1 of `CreateSpanInfoList` over the spans after the first
one, counting additional unique addresses. -/
def step1Aux (cnt endA : Nat) : List SpanInfo → Nat
  | [] => cnt
  | s :: rest =>
      if s.Start > endA then
        step1Aux (w32add cnt (w32add (w32sub s.End s.Start) 1)) s.End rest
      else if s.End > endA then
        step1Aux (w32add cnt (w32sub s.End endA)) s.End rest
      else
        step1Aux cnt endA rest

/-- Step 1 of `CreateSpanInfoList`: the number of unique address entries
needed (`L->Count`, a C `unsigned`). -/
def step1Count : List SpanInfo → Nat
  | [] => 0
  | s0 :: rest => step1Aux (w32add (w32sub s0.End s0.Start) 1) s0.End rest

/-- Body of step 3 of `CreateSpanInfoList`: record the address and bump
the per-address multiplicity. -/
def write3 (a : Nat) (_s : SpanInfo) (e : SpanInfoListEntry) : SpanInfoListEntry :=
  { e with Addr := a, Count := e.Count + 1 }

/-- Step 4 of `CreateSpanInfoList`: slots with more than one span get an
indirect array and their counter is reset for reuse as a write cursor. -/
def write4 (e : SpanInfoListEntry) : SpanInfoListEntry :=
  if e.Count > 1 then { e with Count := 0 } else e

/-- Body of step 5 of `CreateSpanInfoList`: deposit the span directly if
the slot still has count 1 and no payload, otherwise through the indirect
array, advancing the cursor. -/
def write5 (_a : Nat) (s : SpanInfo) (e : SpanInfoListEntry) : SpanInfoListEntry :=
  if e.Count = 1 ∧ e.Data = [] then { e with Data := [s] }
  else { e with Data := e.Data ++ [s], Count := e.Count + 1 }

/-- CreateSpanInfoList: build the span-by-address index from a collection
of span infos sorted by ascending `(Start, End)`.  Step 2's freshly
allocated entries carry count 0 and no payload (their address field is
uninitialized in C; it is modeled as 0 and overwritten by step 3). -/
def createSpanInfoList (spans : List SpanInfo) : SpanInfoList :=
  if spans.isEmpty then { Count := 0, Entries := [] }
  else
    let cnt := step1Count spans
    let arr0 := List.replicate cnt { Addr := 0, Count := 0, Data := [] }
    let arr1 := fillPass write3 spans arr0
    let arr2 := arr1.map write4
    let arr3 := fillPass write5 spans arr2
    { Count := cnt, Entries := arr3 }

/-- Binary-search loop of `FindSpanInfoByAddr` (C `int` bounds).  The
`fuel` argument is an upper bound on the number of iterations, added to
make the recursion structural; the search interval shrinks by at least
one entry per iteration, so any fuel of at least `hi + 1 - lo` reproduces
the unbounded C loop. -/
def findSpanLoop (l : List SpanInfoListEntry) (addr : Nat) :
    Nat → Int → Int → Option SpanInfoListEntry
  | 0, _, _ => none
  | fuel + 1, lo, hi =>
    if lo ≤ hi then
      let cur := (lo + hi) / 2
      match l.get? cur.toNat with
      | none => none
      | some e =>
        if e.Addr > addr then findSpanLoop l addr fuel lo (cur - 1)
        else if e.Addr < addr then findSpanLoop l addr fuel (cur + 1) hi
        else some e
    else none

/-- FindSpanInfoByAddr: find the entry for a given address, `none` if no
such entry exists.  The upper bound is the stored `Count`. -/
def findSpanInfoByAddr (L : SpanInfoList) (addr : Nat) : Option SpanInfoListEntry :=
  findSpanLoop L.Entries addr L.Count 0 ((L.Count : Int) - 1)

/-- CollAt on a by-id collection (`none` both for a missing index and for
a `NULL` placeholder slot; dereferencing either is undefined behavior in
the C original, so the passes below leave such slots untouched). -/
def fileAt (db : DbgInfo) (i : Nat) : Option FileInfo := db.FileInfoById.getD i none

/-- CollAt on the library collection. -/
def libAt (db : DbgInfo) (i : Nat) : Option LibInfo := db.LibInfoById.getD i none

/-- CollAt on the line collection. -/
def lineAt (db : DbgInfo) (i : Nat) : Option LineInfo := db.LineInfoById.getD i none

/-- CollAt on the module collection. -/
def modAt (db : DbgInfo) (i : Nat) : Option ModInfo := db.ModInfoById.getD i none

/-- CollAt on the scope collection. -/
def scopeAt (db : DbgInfo) (i : Nat) : Option ScopeInfo := db.ScopeInfoById.getD i none

/-- CollAt on the segment collection. -/
def segAt (db : DbgInfo) (i : Nat) : Option SegInfo := db.SegInfoById.getD i none

/-- CollAt on the span collection. -/
def spanAt (db : DbgInfo) (i : Nat) : Option SpanInfo := db.SpanInfoById.getD i none

/-- CollAt on the symbol collection. -/
def symAt (db : DbgInfo) (i : Nat) : Option SymInfo := db.SymInfoById.getD i none

/-- In-place mutation of the file record at index `i`. -/
def modifyFile (db : DbgInfo) (i : Nat) (f : FileInfo → FileInfo) : DbgInfo :=
  { db with FileInfoById := List.modify (Option.map f) i db.FileInfoById }

/-- In-place mutation of the line record at index `i`. -/
def modifyLine (db : DbgInfo) (i : Nat) (f : LineInfo → LineInfo) : DbgInfo :=
  { db with LineInfoById := List.modify (Option.map f) i db.LineInfoById }

/-- In-place mutation of the module record at index `i`. -/
def modifyMod (db : DbgInfo) (i : Nat) (f : ModInfo → ModInfo) : DbgInfo :=
  { db with ModInfoById := List.modify (Option.map f) i db.ModInfoById }

/-- In-place mutation of the scope record at index `i`. -/
def modifyScope (db : DbgInfo) (i : Nat) (f : ScopeInfo → ScopeInfo) : DbgInfo :=
  { db with ScopeInfoById := List.modify (Option.map f) i db.ScopeInfoById }

/-- In-place mutation of the span record at index `i`. -/
def modifySpan (db : DbgInfo) (i : Nat) (f : SpanInfo → SpanInfo) : DbgInfo :=
  { db with SpanInfoById := List.modify (Option.map f) i db.SpanInfoById }

/-- In-place mutation of the symbol record at index `i`. -/
def modifySym (db : DbgInfo) (i : Nat) (f : SymInfo → SymInfo) : DbgInfo :=
  { db with SymInfoById := List.modify (Option.map f) i db.SymInfoById }

/-- Name of the module a resolved reference points at (sort key of
`CompareModInfoByName`, read through the pointer). -/
def modNameOfRef (db : DbgInfo) (r : Ref) : String :=
  match r with
  | Ref.ptr (some m) => (match modAt db m with | some M => M.Name | none => "")
  | _ => ""

/-- Comparator `CompareModInfoByName` on module indices, as a `≤` test. -/
abbrev modIdxNameLe (db : DbgInfo) (a b : Nat) : Prop :=
  (match modAt db a with | some M => M.Name | none => "") ≤
  (match modAt db b with | some M => M.Name | none => "")

/-- Sort key of `CompareFileInfoByName`: name, then mtime, then size. -/
abbrev fileIdxLe (db : DbgInfo) (a b : Nat) : Prop :=
  let ka := (match fileAt db a with | some F => (F.Name, F.MTime, F.Size) | none => ("", 0, 0))
  let kb := (match fileAt db b with | some F => (F.Name, F.MTime, F.Size) | none => ("", 0, 0))
  ka.1 < kb.1 ∨ (ka.1 = kb.1 ∧ (ka.2.1 < kb.2.1 ∨
    (ka.2.1 = kb.2.1 ∧ ka.2.2 ≤ kb.2.2)))

/-- Comparator `CompareScopeInfoByName` on scope indices. -/
abbrev scopeIdxNameLe (db : DbgInfo) (a b : Nat) : Prop :=
  (match scopeAt db a with | some S => S.Name | none => "") ≤
  (match scopeAt db b with | some S => S.Name | none => "")

/-- Comparator `CompareSegInfoByName` on segment indices. -/
abbrev segIdxNameLe (db : DbgInfo) (a b : Nat) : Prop :=
  (match segAt db a with | some S => S.Name | none => "") ≤
  (match segAt db b with | some S => S.Name | none => "")

/-- Comparator `CompareSymInfoByName` on symbol indices. -/
abbrev symIdxNameLe (db : DbgInfo) (a b : Nat) : Prop :=
  (match symAt db a with | some S => S.Name | none => "") ≤
  (match symAt db b with | some S => S.Name | none => "")

/-- Comparator `CompareSymInfoByVal` on symbol indices: by value, with the
name as tie breaker. -/
abbrev symIdxValLe (db : DbgInfo) (a b : Nat) : Prop :=
  let ka := (match symAt db a with | some S => (S.Value, S.Name) | none => (0, ""))
  let kb := (match symAt db b with | some S => (S.Value, S.Name) | none => (0, ""))
  ka.1 < kb.1 ∨ (ka.1 = kb.1 ∧ ka.2 ≤ kb.2)

/-- Slot swap of `CollQuickSort` (`CollEntry Tmp = Items[I]; Items[I] =
Items[J]; Items[J] = Tmp;`).  `d` is the default returned for an
out-of-range read; the sort only swaps in-range slots. -/
def qsSwap {α : Type} (l : List α) (d : α) (i j : Nat) : List α :=
  (l.set i (l.getD j d)).set j (l.getD i d)

/-- First inner scan of `CollQuickSort`:
`while (I <= J && Compare (Items[Lo].Ptr, Items[I].Ptr) >= 0) ++I;`.
`ge a b` is the comparator test `Compare (a, b) >= 0`.  The fuel makes the
recursion structural; `I` never moves past `J + 1`, so any fuel of at
least the collection size plus two reproduces the unbounded C loop. -/
def qsScanI {α : Type} (ge : α → α → Bool) (d : α) (l : List α) (pivot : α) :
    Nat → Int → Int → Int
  | 0, i, _ => i
  | fuel + 1, i, j =>
    if i ≤ j ∧ ge pivot (l.getD i.toNat d) then
      qsScanI ge d l pivot fuel (i + 1) j
    else i

/-- Second inner scan of `CollQuickSort`:
`while (I <= J && Compare (Items[Lo].Ptr, Items[J].Ptr) < 0) --J;`. -/
def qsScanJ {α : Type} (ge : α → α → Bool) (d : α) (l : List α) (pivot : α) :
    Nat → Int → Int → Int
  | 0, _, j => j
  | fuel + 1, i, j =>
    if i ≤ j ∧ ¬ge pivot (l.getD j.toNat d) then
      qsScanJ ge d l pivot fuel i (j - 1)
    else j

/-- Partition loop of `CollQuickSort` (`while (I <= J) { ... }`): run both
scans, swap and step the cursors while they have not crossed.  Returns the
permuted items together with the final `J`. -/
def qsPartLoop {α : Type} (ge : α → α → Bool) (d : α) (pivot : α) :
    Nat → List α → Int → Int → List α × Int
  | 0, l, _, j => (l, j)
  | fuel + 1, l, i, j =>
    if i ≤ j then
      let i1 := qsScanI ge d l pivot (l.length + 2) i j
      let j1 := qsScanJ ge d l pivot (l.length + 2) i1 j
      if i1 ≤ j1 then
        qsPartLoop ge d pivot fuel (qsSwap l d i1.toNat j1.toNat) (i1 + 1) (j1 - 1)
      else (l, j1)
    else (l, j)

/-- CollQuickSort: the unstable in-place quicksort of the collection
module.  The pivot is the element at `Lo`; after partitioning it is
swapped to position `J`, the half beyond the midpoint is sorted
recursively and the loop continues on the other half.  Equal-key elements
are permuted, not kept in order.  The fuel makes the combined
loop-plus-recursion structural; each subinterval is strictly smaller than
its parent, so any fuel of at least the interval size reproduces the C. -/
def collQuickSort {α : Type} (ge : α → α → Bool) (d : α) :
    Nat → List α → Int → Int → List α
  | 0, l, _, _ => l
  | fuel + 1, l, lo, hi =>
    if hi > lo then
      let pivot := l.getD lo.toNat d
      let pr := qsPartLoop ge d pivot (l.length + 2) l (lo + 1) hi
      let l2 := if pr.2 ≠ lo then qsSwap pr.1 d pr.2.toNat lo.toNat else pr.1
      if pr.2 > (hi + lo) / 2 then
        collQuickSort ge d fuel (collQuickSort ge d fuel l2 (pr.2 + 1) hi) lo (pr.2 - 1)
      else
        collQuickSort ge d fuel (collQuickSort ge d fuel l2 lo (pr.2 - 1)) (pr.2 + 1) hi
    else l

/-- CollSort: quicksort the whole collection when it has more than one
element.  `ge a b` encodes the C comparator test `Compare (a, b) >= 0`;
for the lexicographic comparators of this reader that test is `b ≤ a` in
the comparator's total preorder. -/
def collSort {α : Type} (ge : α → α → Bool) (d : α) (l : List α) : List α :=
  if l.length > 1 then
    collQuickSort ge d (l.length + 1) l 0 ((l.length : Int) - 1)
  else l

/-- Default span record for out-of-range reads of the quicksort model. -/
def spanDefault : SpanInfo := ⟨0, 0, 0, Ref.ptr none, none, none⟩

/-- Body of the inner loop of `ProcessFileInfo`: resolve the module id at
position `j` of the file at `fileIdx`, installing the back-pointer into
the module. -/
def pfiInnerBody (fileIdx j : Nat) (st : DbgInfo × List Diag) : DbgInfo × List Diag :=
  match fileAt st.1 fileIdx with
  | none => (st.1, st.2)
  | some F =>
    match F.ModInfoByName.getD j (Ref.ptr none) with
    | Ref.id (some modId) =>
      if st.1.ModInfoById.length ≤ modId then
        (modifyFile st.1 fileIdx (fun F2 =>
           { F2 with ModInfoByName := F2.ModInfoByName.set j (Ref.ptr none) }),
         st.2 ++ [⟨Severity.error, "Invalid module id for file"⟩])
      else
        let db1 := modifyFile st.1 fileIdx (fun F2 =>
          { F2 with ModInfoByName := F2.ModInfoByName.set j (Ref.ptr (some modId)) })
        (modifyMod db1 modId (fun M =>
           { M with FileInfoByName := M.FileInfoByName ++ [fileIdx] }), st.2)
    | _ => (st.1, st.2)

/-- Inner loop of `ProcessFileInfo` over the module list of one file (the
list length is fixed during the loop, so iterating over the precomputed
index list is equivalent to the C `for`). -/
def pfiInner (fileIdx len : Nat) (st : DbgInfo × List Diag) : DbgInfo × List Diag :=
  (List.range len).foldl (fun st j => pfiInnerBody fileIdx j st) st

/-- Body of the outer loop of `ProcessFileInfo`; after each file the
module list is sorted by name, but only while no error has been recorded
yet. -/
def pfiOuterBody (i : Nat) (st : DbgInfo × List Diag) : DbgInfo × List Diag :=
  let len := (match fileAt st.1 i with | some F => F.ModInfoByName.length | none => 0)
  let st1 := pfiInner i len st
  let db2 :=
    if errCount st1.2 = 0 then
      modifyFile st1.1 i (fun F =>
        { F with ModInfoByName := (collSort
            (fun a b => decide (modNameOfRef st1.1 b ≤ modNameOfRef st1.1 a))
            (Ref.ptr none) F.ModInfoByName) })
    else st1.1
  (db2, st1.2)

/-- ProcessFileInfo: resolve file→module ids, then sort every module's
file list and the global file-by-name index. -/
def processFileInfo (db : DbgInfo) : DbgInfo × List Diag :=
  let st := (List.range db.FileInfoById.length).foldl
    (fun st i => pfiOuterBody i st) (db, [])
  let db1 := st.1
  let db2 := { db1 with ModInfoById := db1.ModInfoById.map (Option.map (fun (M : ModInfo) =>
    { M with FileInfoByName := (collSort
        (fun a b => decide (fileIdxLe db1 b a)) 0 M.FileInfoByName) })) }
  let db3 := { db2 with FileInfoByName := (collSort
    (fun a b => decide (fileIdxLe db2 b a)) 0 db2.FileInfoByName) }
  (db3, st.2)

/-- Loop body of `ProcessLineInfo`: resolve the file id of the line at
index `i` and install the back-pointer into the file's line list. -/
def pliBody (i : Nat) (st : DbgInfo × List Diag) : DbgInfo × List Diag :=
  match lineAt st.1 i with
  | none => (st.1, st.2)
  | some L =>
    match L.File with
    | Ref.id (some fid) =>
      if st.1.FileInfoById.length ≤ fid then
        (modifyLine st.1 i (fun L2 => { L2 with File := Ref.ptr none }),
         st.2 ++ [⟨Severity.error, "Invalid file id for line"⟩])
      else
        let db1 := modifyLine st.1 i (fun L2 => { L2 with File := Ref.ptr (some fid) })
        (modifyFile db1 fid (fun F =>
           { F with LineInfoByLine := F.LineInfoByLine ++ [i] }), st.2)
    | _ => (st.1, st.2)

/-- Indices visited by the walk of `ProcessLineInfo`: the loop body ends
with an extra `++I` before the `++I` of the `for` statement, so the walk
advances by two records per iteration and visits `0, 2, 4, ...` while
below `n`. -/
def strideIndices (n : Nat) : List Nat := List.range' 0 ((n + 1) / 2) 2

/-- The (stride-two) walk of `ProcessLineInfo` over the line collection. -/
def pliLoop (n : Nat) (st : DbgInfo × List Diag) : DbgInfo × List Diag :=
  (strideIndices n).foldl (fun st i => pliBody i st) st

/-- Line number of the line record a back-pointer refers to (sort key of
`CompareLineInfoByLine`). -/
def lineNumOf (db : DbgInfo) (i : Nat) : Nat :=
  match lineAt db i with
  | some L => L.Line
  | none => 0

/-- ProcessLineInfo: the (stride-two) resolution walk, then sort each
file's line list by line number. -/
def processLineInfo (db : DbgInfo) : DbgInfo × List Diag :=
  let st := pliLoop db.LineInfoById.length (db, [])
  let db1 := st.1
  ({ db1 with FileInfoById := db1.FileInfoById.map (Option.map (fun F =>
     { F with LineInfoByLine := (collSort
         (fun a b => decide (lineNumOf db1 b ≤ lineNumOf db1 a)) 0
         F.LineInfoByLine) })) }, st.2)

/-- Loop body of `ProcessModInfo`: resolve the main file and the optional
library of the module at index `i`. -/
def pmiBody (i : Nat) (st : DbgInfo × List Diag) : DbgInfo × List Diag :=
  match modAt st.1 i with
  | none => (st.1, st.2)
  | some M =>
    let st1 :=
      match M.File with
      | Ref.id (some fid) =>
        if st.1.FileInfoById.length ≤ fid then
          (modifyMod st.1 i (fun M2 => { M2 with File := Ref.ptr none }),
           st.2 ++ [⟨Severity.error, "Invalid file id for module"⟩])
        else
          (modifyMod st.1 i (fun M2 => { M2 with File := Ref.ptr (some fid) }), st.2)
      | _ => (st.1, st.2)
    match modAt st1.1 i with
    | none => st1
    | some M1 =>
      match M1.Lib with
      | Ref.id none => (modifyMod st1.1 i (fun M2 => { M2 with Lib := Ref.ptr none }), st1.2)
      | Ref.id (some lid) =>
        if st1.1.LibInfoById.length ≤ lid then
          (modifyMod st1.1 i (fun M2 => { M2 with Lib := Ref.ptr none }),
           st1.2 ++ [⟨Severity.error, "Invalid library id for module"⟩])
        else
          (modifyMod st1.1 i (fun M2 => { M2 with Lib := Ref.ptr (some lid) }), st1.2)
      | _ => st1

/-- The walk of `ProcessModInfo` over the module collection. -/
def pmiLoop (n : Nat) (st : DbgInfo × List Diag) : DbgInfo × List Diag :=
  (List.range n).foldl (fun st i => pmiBody i st) st

/-- ProcessModInfo: resolve ids, then sort the module-by-name index. -/
def processModInfo (db : DbgInfo) : DbgInfo × List Diag :=
  let st := pmiLoop db.ModInfoById.length (db, [])
  ({ st.1 with ModInfoByName := (collSort
    (fun a b => decide (modIdxNameLe st.1 b a)) 0 st.1.ModInfoByName) }, st.2)

/-- Inner loop of `ProcessScopeInfo`: resolve the span ids of the scope at
`scopeIdx`, installing back-pointers (allocating the span's scope list on
first use). -/
def psiSpanBody (scopeIdx j : Nat) (st : DbgInfo × List Diag) : DbgInfo × List Diag :=
  match scopeAt st.1 scopeIdx with
  | none => (st.1, st.2)
  | some S =>
    match S.SpanInfoList.getD j (Ref.ptr none) with
    | Ref.id (some sid) =>
      if st.1.SpanInfoById.length ≤ sid then
        (modifyScope st.1 scopeIdx (fun S2 =>
           { S2 with SpanInfoList := S2.SpanInfoList.set j (Ref.ptr none) }),
         st.2 ++ [⟨Severity.error, "Invalid span id for scope"⟩])
      else
        let db1 := modifyScope st.1 scopeIdx (fun S2 =>
          { S2 with SpanInfoList := S2.SpanInfoList.set j (Ref.ptr (some sid)) })
        (modifySpan db1 sid (fun SP =>
           { SP with ScopeInfoList := some ((SP.ScopeInfoList.getD []) ++ [scopeIdx]) }), st.2)
    | _ => (st.1, st.2)

/-- Walk of the span list of one scope. -/
def psiSpanLoop (scopeIdx len : Nat) (st : DbgInfo × List Diag) : DbgInfo × List Diag :=
  (List.range len).foldl (fun st j => psiSpanBody scopeIdx j st) st

/-- Module-resolution step of the `ProcessScopeInfo` body: resolve the
module id of the scope at index `i`, append the scope to the module's
scope list and, when the scope has no parent id, mark it as the module's
main scope (overwriting any earlier mark). -/
def psiResolveMod (i : Nat) (st : DbgInfo × List Diag) : DbgInfo × List Diag :=
  match scopeAt st.1 i with
  | none => (st.1, st.2)
  | some S =>
    match S.Mod with
    | Ref.id (some m) =>
      if st.1.ModInfoById.length ≤ m then
        (modifyScope st.1 i (fun S2 => { S2 with Mod := Ref.ptr none }),
         st.2 ++ [⟨Severity.error, "Invalid module id for scope"⟩])
      else
        let db1 := modifyScope st.1 i (fun S2 => { S2 with Mod := Ref.ptr (some m) })
        let db2 := modifyMod db1 m (fun M =>
          { M with ScopeInfoByName := M.ScopeInfoByName ++ [i] })
        let db3 :=
          if S.Parent = Ref.id none then
            modifyMod db2 m (fun M => { M with MainScope := some i })
          else db2
        (db3, st.2)
    | _ => (st.1, st.2)

/-- Parent-resolution step of the `ProcessScopeInfo` body. -/
def psiResolveParent (i : Nat) (st : DbgInfo × List Diag) : DbgInfo × List Diag :=
  match scopeAt st.1 i with
  | none => st
  | some S1 =>
    match S1.Parent with
    | Ref.id none =>
      (modifyScope st.1 i (fun S2 => { S2 with Parent := Ref.ptr none }), st.2)
    | Ref.id (some p) =>
      if st.1.ScopeInfoById.length ≤ p then
        (modifyScope st.1 i (fun S2 => { S2 with Parent := Ref.ptr none }),
         st.2 ++ [⟨Severity.error, "Invalid parent scope id for scope"⟩])
      else
        (modifyScope st.1 i (fun S2 => { S2 with Parent := Ref.ptr (some p) }), st.2)
    | _ => st

/-- Label-resolution step of the `ProcessScopeInfo` body. -/
def psiResolveLabel (i : Nat) (st : DbgInfo × List Diag) : DbgInfo × List Diag :=
  match scopeAt st.1 i with
  | none => st
  | some S2 =>
    match S2.Label with
    | Ref.id none =>
      (modifyScope st.1 i (fun S3 => { S3 with Label := Ref.ptr none }), st.2)
    | Ref.id (some l) =>
      if st.1.SymInfoById.length ≤ l then
        (modifyScope st.1 i (fun S3 => { S3 with Label := Ref.ptr none }),
         st.2 ++ [⟨Severity.error, "Invalid label id for scope"⟩])
      else
        (modifyScope st.1 i (fun S3 => { S3 with Label := Ref.ptr (some l) }), st.2)
    | _ => st

/-- Loop body of `ProcessScopeInfo` for the scope at index `i`: resolve
module (with main-scope marking), parent, label and span list. -/
def psiBody (i : Nat) (st : DbgInfo × List Diag) : DbgInfo × List Diag :=
  match scopeAt st.1 i with
  | none => (st.1, st.2)
  | some _ =>
    let st3 := psiResolveLabel i (psiResolveParent i (psiResolveMod i st))
    let len := (match scopeAt st3.1 i with | some S3 => S3.SpanInfoList.length | none => 0)
    psiSpanLoop i len st3

/-- The walk of `ProcessScopeInfo` over the scope collection. -/
def psiLoop (n : Nat) (st : DbgInfo × List Diag) : DbgInfo × List Diag :=
  (List.range n).foldl (fun st i => psiBody i st) st

/-- Body of the final module walk of `ProcessScopeInfo`: every module must
have a main scope; the module's scope list is sorted by name. -/
def psiModBody (i : Nat) (st : DbgInfo × List Diag) : DbgInfo × List Diag :=
  let ds1 :=
    match modAt st.1 i with
    | some M => if M.MainScope = none then
                  st.2 ++ [⟨Severity.error, "Module has no main scope"⟩]
                else st.2
    | none => st.2
  let db1 := modifyMod st.1 i (fun M =>
    { M with ScopeInfoByName := (collSort
        (fun a b => decide (scopeIdxNameLe st.1 b a)) 0 M.ScopeInfoByName) })
  (db1, ds1)

/-- Final module walk of `ProcessScopeInfo`. -/
def psiModLoop (n : Nat) (st : DbgInfo × List Diag) : DbgInfo × List Diag :=
  (List.range n).foldl (fun st i => psiModBody i st) st

/-- ProcessScopeInfo: resolve all scope references, then check and sort
the modules. -/
def processScopeInfo (db : DbgInfo) : DbgInfo × List Diag :=
  let st := psiLoop db.ScopeInfoById.length (db, [])
  psiModLoop st.1.ModInfoById.length st

/-- ProcessSegInfo: only the segment-by-name index is built. -/
def processSegInfo (db : DbgInfo) : DbgInfo :=
  { db with SegInfoByName := (collSort
    (fun a b => decide (segIdxNameLe db b a)) 0 db.SegInfoByName) }

/-- Loop body of `ProcessSpanInfo`: resolve the segment of the span at
index `i` and relocate the span by the segment start. -/
def pspBody (i : Nat) (st : DbgInfo × List Diag) : DbgInfo × List Diag :=
  match spanAt st.1 i with
  | none => (st.1, st.2)
  | some S =>
    match S.Seg with
    | Ref.id (some g) =>
      if st.1.SegInfoById.length ≤ g then
        (modifySpan st.1 i (fun S2 => { S2 with Seg := Ref.ptr none }),
         st.2 ++ [⟨Severity.error, "Invalid segment id for span"⟩])
      else
        let segStart := (match segAt st.1 g with | some G => G.Start | none => 0)
        (modifySpan st.1 i (fun S2 =>
           { S2 with Seg := Ref.ptr (some g)
                     Start := w32add S2.Start segStart
                     End := w32add S2.End segStart }), st.2)
    | _ => (st.1, st.2)

/-- The walk of `ProcessSpanInfo` over the span collection. -/
def pspLoop (n : Nat) (st : DbgInfo × List Diag) : DbgInfo × List Diag :=
  (List.range n).foldl (fun st i => pspBody i st) st

/-- Comparator `CompareSpanInfoByAddr` as a `≤` test: smaller start first,
ties broken by smaller end. -/
abbrev spanAddrLe (a b : SpanInfo) : Prop :=
  a.Start < b.Start ∨ (a.Start = b.Start ∧ a.End ≤ b.End)

/-- ProcessSpanInfo: resolve and relocate all spans, gather them into a
temporary collection in id order (a `NULL` placeholder slot would crash
the C comparator; such slots are dropped here), sort it by address and
build the span-by-address index from it. -/
def processSpanInfo (db : DbgInfo) : DbgInfo × List Diag :=
  let st := pspLoop db.SpanInfoById.length (db, [])
  let db1 := st.1
  let sorted := collSort (fun a b => decide (spanAddrLe b a)) spanDefault
    (db1.SpanInfoById.filterMap (fun o => o))
  ({ db1 with SpanInfoByAddr := createSpanInfoList sorted }, st.2)

/-- Pass-1 loop body of `ProcessSymInfo`: resolve segment, scope and
parent ids of the symbol at index `i`. -/
def psyBody1 (i : Nat) (st : DbgInfo × List Diag) : DbgInfo × List Diag :=
  match symAt st.1 i with
  | none => (st.1, st.2)
  | some S =>
    let st1 :=
      match S.Seg with
      | Ref.id none => (modifySym st.1 i (fun S2 => { S2 with Seg := Ref.ptr none }), st.2)
      | Ref.id (some g) =>
        if st.1.SegInfoById.length ≤ g then
          (modifySym st.1 i (fun S2 => { S2 with Seg := Ref.ptr none }),
           st.2 ++ [⟨Severity.error, "Invalid segment id for symbol"⟩])
        else
          (modifySym st.1 i (fun S2 => { S2 with Seg := Ref.ptr (some g) }), st.2)
      | _ => (st.1, st.2)
    let st2 :=
      match symAt st1.1 i with
      | none => st1
      | some S1 =>
        match S1.Scope with
        | Ref.id none =>
          (modifySym st1.1 i (fun S2 => { S2 with Scope := Ref.ptr none }), st1.2)
        | Ref.id (some sc) =>
          if st1.1.ScopeInfoById.length ≤ sc then
            (modifySym st1.1 i (fun S2 => { S2 with Scope := Ref.ptr none }),
             st1.2 ++ [⟨Severity.error, "Invalid scope id for symbol"⟩])
          else
            (modifySym st1.1 i (fun S2 => { S2 with Scope := Ref.ptr (some sc) }), st1.2)
        | _ => st1
    match symAt st2.1 i with
    | none => st2
    | some S2 =>
      match S2.Parent with
      | Ref.id none =>
        (modifySym st2.1 i (fun S3 => { S3 with Parent := Ref.ptr none }), st2.2)
      | Ref.id (some p) =>
        if st2.1.SymInfoById.length ≤ p then
          (modifySym st2.1 i (fun S3 => { S3 with Parent := Ref.ptr none }),
           st2.2 ++ [⟨Severity.error, "Invalid parent id for symbol"⟩])
        else
          (modifySym st2.1 i (fun S3 => { S3 with Parent := Ref.ptr (some p) }), st2.2)
      | _ => st2

/-- Pass-1 walk of `ProcessSymInfo`. -/
def psyLoop1 (n : Nat) (st : DbgInfo × List Diag) : DbgInfo × List Diag :=
  (List.range n).foldl (fun st i => psyBody1 i st) st

/-- Pass-2 loop body of `ProcessSymInfo`: a symbol without a scope must
have a parent with a scope, which it inherits. -/
def psyBody2 (i : Nat) (st : DbgInfo × List Diag) : DbgInfo × List Diag :=
  match symAt st.1 i with
  | none => (st.1, st.2)
  | some S =>
    match S.Scope with
    | Ref.ptr none =>
      match S.Parent with
      | Ref.ptr none =>
        (st.1, st.2 ++ [⟨Severity.error, "Symbol has no parent and no scope"⟩])
      | Ref.ptr (some p) =>
        (match symAt st.1 p with
         | none => (st.1, st.2)
         | some P =>
           match P.Scope with
           | Ref.ptr none =>
             (st.1, st.2 ++ [⟨Severity.error, "Symbol has parent without a scope"⟩])
           | Ref.ptr (some sc) =>
             (modifySym st.1 i (fun S2 => { S2 with Scope := Ref.ptr (some sc) }), st.2)
           | _ => (st.1, st.2))
      | _ => (st.1, st.2)
    | _ => (st.1, st.2)

/-- Pass-2 walk of `ProcessSymInfo`. -/
def psyLoop2 (n : Nat) (st : DbgInfo × List Diag) : DbgInfo × List Diag :=
  (List.range n).foldl (fun st i => psyBody2 i st) st

/-- ProcessSymInfo: two resolution passes, then build the sorted symbol
indices. -/
def processSymInfo (db : DbgInfo) : DbgInfo × List Diag :=
  let st1 := psyLoop1 db.SymInfoById.length (db, [])
  let st2 := psyLoop2 st1.1.SymInfoById.length st1
  let db2 := st2.1
  ({ db2 with SymInfoByName := (collSort
                (fun a b => decide (symIdxNameLe db2 b a)) 0 db2.SymInfoByName)
              SymInfoByVal := (collSort
                (fun a b => decide (symIdxValLe db2 b a)) 0 db2.SymInfoByVal) }, st2.2)

/-- The post-parse resolution sequence of `cc65_read_dbginfo`
(`ProcessFileInfo` through `ProcessSymInfo`), with the diagnostics of the
individual passes in emission order. -/
def resolve (db : DbgInfo) : DbgInfo × List Diag :=
  let s1 := processFileInfo db
  let s2 := processLineInfo s1.1
  let s3 := processModInfo s2.1
  let s4 := processScopeInfo s3.1
  let d5 := processSegInfo s4.1
  let s6 := processSpanInfo d5
  let s7 := processSymInfo s6.1
  (s7.1, s1.2 ++ s2.2 ++ s3.2 ++ s4.2 ++ s6.2 ++ s7.2)

/-- Version of the debug format the reader understands. -/
def VER_MAJOR : Nat := 2

/-- Minor version of the debug format the reader understands. -/
def VER_MINOR : Nat := 0

/-- The reader `cc65_read_dbginfo`, at record level: `major`/`minor` are
the values of the leading version record, `rs` the remaining input lines.
The version checks come first (an old major version aborts reading); the
records are then parsed, and if `D->Errors` is still zero the resolver
runs and its result is returned as the handle - the handle, not `none`,
is returned even if the resolver itself recorded errors, because the
error count is only inspected before resolution. -/
def cc65_read_dbginfo (major minor : Nat) (rs : List Record) :
    Option DbgInfo × List Diag :=
  if major < VER_MAJOR then
    (none, [⟨Severity.error, "old version of the debug info format"⟩])
  else
    let vd : List Diag :=
      if major = VER_MAJOR ∧ VER_MINOR < minor then
        [⟨Severity.error, "slightly newer version of the debug info format"⟩]
      else if VER_MAJOR < major then
        [⟨Severity.warning, "format is newer than what we know"⟩]
      else []
    let pst := parseRecords rs
    if 0 < errCount (vd ++ pst.2) then (none, vd ++ pst.2)
    else
      let rst := resolve pst.1
      (some rst.1, vd ++ pst.2 ++ rst.2)

/-- Binary-search loop of `FindLineInfoByLine` over a file's line list
(entries are pointers, i.e. indices into the line collection).  On an
exact hit the current item is returned immediately - there is no
continuation towards the first of several equal line numbers. -/
def findLineLoop (db : DbgInfo) (l : List Nat) (line : Nat) :
    Nat → Int → Int → Option Nat
  | 0, _, _ => none
  | fuel + 1, lo, hi =>
    if lo ≤ hi then
      let cur := (lo + hi) / 2
      match l.get? cur.toNat with
      | none => none
      | some li =>
        if lineNumOf db li < line then findLineLoop db l line fuel (cur + 1) hi
        else if line < lineNumOf db li then findLineLoop db l line fuel lo (cur - 1)
        else some li
    else none

/-- FindLineInfoByLine: binary search a file's (line-number sorted) line
list, returning the found record pointer or `none`. -/
def findLineInfoByLine (db : DbgInfo) (l : List Nat) (line : Nat) : Option Nat :=
  findLineLoop db l line l.length 0 ((l.length : Int) - 1)

/-- cc65_lineinfo_byline: invalid file ids give `none`; otherwise the
file's line list is binary searched and the found record is copied out. -/
def cc65_lineinfo_byline (db : DbgInfo) (fileId line : Nat) : Option LineInfo :=
  if db.FileInfoById.length ≤ fileId then none
  else
    match fileAt db fileId with
    | none => none
    | some F =>
      match findLineInfoByLine db F.LineInfoByLine line with
      | none => none
      | some li => lineAt db li

/-- cc65_spaninfo_byaddr: binary search the span-by-address index; a hit
returns copies of the spans deposited for that address, a miss returns
`none`. -/
def cc65_spaninfo_byaddr (db : DbgInfo) (addr : Nat) : Option (List SpanInfo) :=
  match findSpanInfoByAddr db.SpanInfoByAddr addr with
  | none => none
  | some e => some e.Data

/-- Binary-search loop of `FindSymInfoByValue` (lower bound): on a
non-smaller value the search continues to the left, remembering whether
an exact match was seen; the final `Lo` is the insert position. -/
def findSymValLoop (l : List SymInfo) (value : Int) :
    Nat → Int → Int → Bool → Bool × Int
  | 0, lo, _, found => (found, lo)
  | fuel + 1, lo, hi, found =>
    if lo ≤ hi then
      let cur := (lo + hi) / 2
      match l.get? cur.toNat with
      | none => (found, lo)
      | some s =>
        if s.Value < value then findSymValLoop l value fuel (cur + 1) hi found
        else findSymValLoop l value fuel lo (cur - 1) (found || value == s.Value)
    else (found, lo)

/-- FindSymInfoByValue: returns the found flag and the index of the first
item whose value is not smaller than the given one. -/
def findSymInfoByValue (l : List SymInfo) (value : Int) : Bool × Int :=
  findSymValLoop l value l.length 0 ((l.length : Int) - 1) false

/-- Forward scan of `cc65_symbol_inrange` over the suffix of the
value-sorted collection that starts at the lower-bound index: collect
label symbols until the value exceeds the end of the range. -/
def symScan (endA : Nat) (acc : List SymInfo) : List SymInfo → List SymInfo
  | [] => acc
  | s :: rest =>
    if (endA : Int) < s.Value then acc
    else if s.Ty ≠ SymType.label then symScan endA acc rest
    else symScan endA (acc ++ [s]) rest

/-- cc65_symbol_inrange over the (value-sorted) symbol collection
`SymInfoByVal`, given here directly as the list of symbol records the
collection's pointers refer to.  Labels with `Start ≤ Value ≤ End` are
collected; an empty result is reported as `none`. -/
def cc65_symbol_inrange (l : List SymInfo) (startA endA : Nat) :
    Option (List SymInfo) :=
  let idx := (findSymInfoByValue l (startA : Int)).2
  let res := symScan endA [] (l.drop idx.toNat)
  if res.length = 0 then none else some res

/-- Input fixture: a clean parse whose only irregularity is two line
records (so that the line pass has a second, odd-indexed record). -/
def strideInput : List Record :=
  [ Record.file ⟨0, "a.s", 10, 0, [0]⟩
  , Record.mod ⟨0, "a", 0, none⟩
  , Record.scope ⟨0, "", 2, 0, 0, none, none, []⟩
  , Record.line ⟨0, 0, 1, 0, 0, []⟩
  , Record.line ⟨1, 0, 2, 0, 0, []⟩ ]

/-- Input fixture: one segment, one span, one line referencing the span
(scenario S2 of the specification, without the unused size fields). -/
def spanLineInput : List Record :=
  [ Record.file ⟨0, "a.s", 10, 0x500, [0]⟩
  , Record.seg ⟨0, "CODE", 0x8000, 0x10, none, none⟩
  , Record.span ⟨0, 0, 0, 4⟩
  , Record.line ⟨0, 0, 7, 0, 0, [0]⟩
  , Record.mod ⟨0, "a", 0, none⟩
  , Record.scope ⟨0, "", 2, 0, 0, none, none, []⟩ ]

/-- Main scope field of the module at index `m` (read through the by-id
collection). -/
def mainScopeOf (db : DbgInfo) (m : Nat) : Option Nat :=
  match modAt db m with
  | some M => M.MainScope
  | none => none

/-- Whether the scope record at index `k` makes the main-scope mark for
module `m` in the scope pass: the module slot must exist and the scope
must carry the raw module id `m` and no parent id. -/
def isParentlessFor (db : DbgInfo) (m k : Nat) : Bool :=
  (modAt db m).isSome &&
  (match scopeAt db k with
   | some S => decide (S.Mod = Ref.id (some m)) && decide (S.Parent = Ref.id none)
   | none => false)

/-- Indices of the scopes that mark module `m` as their module without
carrying a parent id, in walk order. -/
def parentlessScopes (db : DbgInfo) (m : Nat) : List Nat :=
  (List.range db.ScopeInfoById.length).filter (fun k => isParentlessFor db m k)

/-- Input fixture: parses cleanly (no parse-phase diagnostics) but its
line record refers to file id 5, which no file record defines - an
id-range violation that only the resolver can detect. -/
def resolverErrInput : List Record :=
  [ Record.file ⟨0, "a.s", 10, 0, [0]⟩
  , Record.mod ⟨0, "a", 0, none⟩
  , Record.scope ⟨0, "", 2, 0, 0, none, none, []⟩
  , Record.line ⟨0, 5, 1, 0, 0, []⟩ ]

/-- The list of distinct covered addresses the walk of `CreateSpanInfoList`
appends beyond a running maximum `endA`, span by span. -/
def walkCL (endA : Nat) : List SpanInfo → List Nat
  | [] => []
  | s :: rest =>
    if s.Start > endA then
      List.range' s.Start (s.End + 1 - s.Start) ++ walkCL s.End rest
    else if s.End > endA then
      List.range' (endA + 1) (s.End - endA) ++ walkCL s.End rest
    else
      walkCL endA rest

/-- All distinct addresses covered by a start-sorted span collection, in
ascending order - the addresses of the entries of the span-by-address
index. -/
def coveredList (spans : List SpanInfo) : List Nat :=
  match spans with
  | [] => []
  | s0 :: rest => List.range' s0.Start (s0.End + 1 - s0.Start) ++ walkCL s0.End rest

/-- The set of addresses covered by the spans (union of the closed
`[Start, End]` intervals). -/
def coveredSet (spans : List SpanInfo) : Finset Nat :=
  spans.foldr (fun s acc => Finset.Icc s.Start s.End ∪ acc) ∅

/-- The addresses the remaining walk of `CreateSpanInfoList` is responsible
for: the still-open linear range `[lS, endA]` followed by everything the
remaining spans append. -/
def tailAddrs (lS endA : Nat) (rest : List SpanInfo) : List Nat :=
  List.range' lS (endA + 1 - lS) ++ walkCL endA rest

/-- Whether span `s` covers address `a`. -/
def covers (a : Nat) (s : SpanInfo) : Bool :=
  decide (s.Start ≤ a) && decide (a ≤ s.End)

/-- Default entry used for out-of-range reads in statements about the
span-by-address index. -/
def entryDefault : SpanInfoListEntry := ⟨0, 0, []⟩

/-- Span fixture: two overlapping spans `[10, 13]` and `[12, 15]`
(scenario S3 of the specification, already rebased). -/
def ovSpans : List SpanInfo :=
  [ ⟨0, 10, 13, Ref.ptr none, none, none⟩
  , ⟨1, 12, 15, Ref.ptr none, none, none⟩ ]

/-- A placeholder symbol record used only as the default of out-of-range
list reads in statements about the value-sorted symbol collection. -/
def symDefault : SymInfo :=
  ⟨0, "", SymType.equate, 0, 0, Ref.ptr none, Ref.ptr none, Ref.ptr none⟩

/-- Symbol fixture for the range query: a value-sorted collection holding
labels at 5, 7 and 9 and an equate at 6. -/
def rangeSyms : List SymInfo :=
  [ ⟨0, "a", SymType.label, 5, 0, Ref.ptr none, Ref.ptr (some 0), Ref.ptr none⟩
  , ⟨1, "b", SymType.equate, 6, 0, Ref.ptr none, Ref.ptr (some 0), Ref.ptr none⟩
  , ⟨2, "c", SymType.label, 7, 0, Ref.ptr none, Ref.ptr (some 0), Ref.ptr none⟩
  , ⟨3, "d", SymType.label, 9, 0, Ref.ptr none, Ref.ptr (some 0), Ref.ptr none⟩ ]

/-- The line list of the file at index `fileId` (empty when the slot does
not exist), the list `FindLineInfoByLine` searches. -/
def fileLines (db : DbgInfo) (fileId : Nat) : List Nat :=
  match fileAt db fileId with
  | some F => F.LineInfoByLine
  | none => []

/-- Input fixture for the duplicate-line-number query: five line records of
the same file that all carry source line 7 (records 1 and 3 are skipped by
the stride of the line pass, leaving records 0, 2 and 4 in the file's
by-line list, which the unstable quicksort then reorders to 2, 4, 0). -/
def dupLineInput : List Record :=
  [ Record.file ⟨0, "a.s", 10, 0, [0]⟩
  , Record.mod ⟨0, "a", 0, none⟩
  , Record.scope ⟨0, "", 2, 0, 0, none, none, []⟩
  , Record.line ⟨0, 0, 7, 0, 0, []⟩
  , Record.line ⟨1, 0, 7, 0, 0, []⟩
  , Record.line ⟨2, 0, 7, 0, 0, []⟩
  , Record.line ⟨3, 0, 7, 0, 0, []⟩
  , Record.line ⟨4, 0, 7, 0, 0, []⟩ ]

/-- One predicate of the C7 analysis: whether a diagnostic is the
"Module has no main scope" error that `ProcessScopeInfo` emits in its
final module walk. -/
def noMainMsg (d : Diag) : Bool := d.msg == "Module has no main scope"

/-- Input fixture for the main-scope rule: one module with two scopes
that both refer to module 0 and carry no parent id. -/
def twoMainInput : List Record :=
  [ Record.file ⟨0, "a.s", 10, 0, [0]⟩
  , Record.mod ⟨0, "a", 0, none⟩
  , Record.scope ⟨0, "sA", 2, 0, 0, none, none, []⟩
  , Record.scope ⟨1, "sB", 2, 0, 0, none, none, []⟩ ]

/-- Input fixture for the zero-parentless-scope case of the main-scope
rule: one module and no scope records at all. -/
def noMainInput : List Record :=
  [ Record.file ⟨0, "a.s", 10, 0, [0]⟩
  , Record.mod ⟨0, "a", 0, none⟩ ]

/-- Claim C6: the claim says a version record with the supported major (2)
and a newer minor yields only a warning-severity diagnostic, so the load
does not fail, while an older major is rejected outright.  The code is
different: the newer-minor branch of `cc65_read_dbginfo` passes
`CC65_ERROR` to `ParseError` (even though its own message says "it might
work"), so `D->Errors` becomes nonzero and the load returns a null
handle.  This theorem evaluates the embedded reader at the failing input
(major 2, minor 1, no further records): the sole diagnostic has error
severity and the handle is null; it also confirms the older-major
rejection and that a newer major really is only a warning. -/
theorem c6_newer_minor_is_error :
    cc65_read_dbginfo 2 1 [] =
      (none, [⟨Severity.error, "slightly newer version of the debug info format"⟩]) ∧
    (cc65_read_dbginfo 1 0 []).1 = none ∧
    (cc65_read_dbginfo 3 0 []).1.isSome = true ∧
    (cc65_read_dbginfo 3 0 []).2 =
      [⟨Severity.warning, "format is newer than what we know"⟩] := by
  exact ⟨rfl, rfl, rfl, rfl⟩

/-- Claim C4: the claim says the line pass of the resolver visits every
parsed line record exactly once, resolving its file reference and
appending it to the file's line list.  The loop body of `ProcessLineInfo`
contains an extra `++I`, so the walk has stride two: on an input with two
line records (both with the valid file id 0) the record with id 1 is
never visited - after a diagnostics-free load its file field still holds
the raw id and file 0's line list contains only line 0. -/
theorem c4_stride_two_line_pass :
    (cc65_read_dbginfo 2 0 strideInput).2 = [] ∧
    ((cc65_read_dbginfo 2 0 strideInput).1.map (fun db =>
      ((lineAt db 1).map (fun L => L.File),
       (fileAt db 0).map (fun F => F.LineInfoByLine)))) =
      some (some (Ref.id (some 0)), some [0]) := by
  exact ⟨rfl, rfl⟩

/-- Claim C5: the claim states back-reference symmetry between lines and
spans (a span is in a line's span list iff the line is in the span's line
list).  The code never establishes it: no resolution pass rewrites a
line's span-id list into pointers, and nothing ever appends to a span's
`LineInfoList` (it stays the `NULL` pointer installed by `NewSpanInfo`).
After a diagnostics-free load of an input where line 0 references span 0,
the line's span list still holds the raw id 0 while span 0's line list is
still the null pointer - so the symmetry fails. -/
theorem c5_span_line_backrefs_missing :
    (cc65_read_dbginfo 2 0 spanLineInput).2 = [] ∧
    ((cc65_read_dbginfo 2 0 spanLineInput).1.map (fun db =>
      ((lineAt db 0).map (fun L => L.SpanInfoList),
       (spanAt db 0).map (fun S => S.LineInfoList)))) =
      some (some [Ref.id (some 0)], some none) := by
  exact ⟨rfl, rfl⟩

/-- The slot written by `CollReplaceExpand` afterwards holds the new item,
whether or not the index was already occupied. -/
theorem collReplaceExpand_getD {α : Type} (c : List (Option α)) (x : α) (i : Nat) :
    (collReplaceExpand c x i).getD i none = some x := by
  unfold collReplaceExpand
  by_cases h : i < c.length
  · simp [h, List.getD, List.getElem?_set]
  · rw [if_neg h]
    have h2 : c.length ≤ i := Nat.le_of_not_lt h
    rw [List.getD, List.get?_eq_getElem?, List.append_assoc,
        List.getElem?_append_right (by simpa using h2),
        List.getElem?_append_right (by simp)]
    simp

/-- Claim C10: when two records of the same kind carry the same id, the
parser emits no diagnostic of any severity; the later record silently
replaces the earlier one at that index (the store at the end of
`ParseSpan`/`ParseSym` goes through `CollReplaceExpand`, which overwrites
an occupied slot unconditionally).  Stated for a span pair and a symbol
pair (the symbol records are assumed to pass the scope/parent pairing
check, the only diagnostic the symbol store path can raise). -/
theorem c10_duplicate_id_silent_overwrite (db db2 : DbgInfo)
    (r1 r2 : SpanRec) (q1 q2 : SymRec)
    (hr : r1.id = r2.id) (hq : q1.id = q2.id)
    (hq1 : q1.scopeId.isSome ≠ q1.parentId.isSome)
    (hq2 : q2.scopeId.isSome ≠ q2.parentId.isSome) :
    ((parseSpanStore db r1).2 = [] ∧
     (parseSpanStore (parseSpanStore db r1).1 r2).2 = [] ∧
     spanAt (parseSpanStore (parseSpanStore db r1).1 r2).1 r1.id =
       some { Id := r2.id, Start := r2.start
              End := w32sub (w32add r2.start r2.size) 1
              Seg := Ref.id (some r2.segId)
              ScopeInfoList := none, LineInfoList := none }) ∧
    ((parseSymStore db2 q1).2 = [] ∧
     (parseSymStore (parseSymStore db2 q1).1 q2).2 = [] ∧
     symAt (parseSymStore (parseSymStore db2 q1).1 q2).1 q1.id =
       some { Id := q2.id, Name := q2.name, Ty := q2.ty, Value := q2.value
              Size := q2.size, Seg := Ref.id q2.segId
              Scope := Ref.id q2.scopeId, Parent := Ref.id q2.parentId }) := by
  constructor
  · refine ⟨rfl, rfl, ?_⟩
    rw [hr]
    exact collReplaceExpand_getD _ _ _
  · have e1 : ¬(q1.scopeId.isSome = q1.parentId.isSome) := hq1
    have e2 : ¬(q2.scopeId.isSome = q2.parentId.isSome) := hq2
    refine ⟨?_, ?_, ?_⟩
    · simp only [parseSymStore, if_neg e1]
    · simp only [parseSymStore, if_neg e1, if_neg e2]
    · simp only [parseSymStore, if_neg e1, if_neg e2, symAt]
      rw [hq]
      exact collReplaceExpand_getD _ _ _

/-- Witness for C10 at concrete inputs: two span records with id 0 and two
symbol records with id 0. -/
theorem c10_witness :
    ((⟨0, 0, 0, 4⟩ : SpanRec).id = (⟨0, 1, 8, 2⟩ : SpanRec).id ∧
     (⟨0, "s", SymType.equate, 0, 0, none, some 0, none⟩ : SymRec).id =
       (⟨0, "t", SymType.label, 1, 0, none, none, some 3⟩ : SymRec).id) ∧
    ((parseSpanStore emptyDbgInfo ⟨0, 0, 0, 4⟩).2 = [] ∧
     (parseSpanStore (parseSpanStore emptyDbgInfo ⟨0, 0, 0, 4⟩).1 ⟨0, 1, 8, 2⟩).2 = [] ∧
     spanAt (parseSpanStore (parseSpanStore emptyDbgInfo ⟨0, 0, 0, 4⟩).1 ⟨0, 1, 8, 2⟩).1 0 =
       some { Id := 0, Start := 8, End := w32sub (w32add 8 2) 1
              Seg := Ref.id (some 1), ScopeInfoList := none, LineInfoList := none }) ∧
    ((parseSymStore emptyDbgInfo ⟨0, "s", SymType.equate, 0, 0, none, some 0, none⟩).2 = [] ∧
     (parseSymStore (parseSymStore emptyDbgInfo
        ⟨0, "s", SymType.equate, 0, 0, none, some 0, none⟩).1
        ⟨0, "t", SymType.label, 1, 0, none, none, some 3⟩).2 = [] ∧
     symAt (parseSymStore (parseSymStore emptyDbgInfo
        ⟨0, "s", SymType.equate, 0, 0, none, some 0, none⟩).1
        ⟨0, "t", SymType.label, 1, 0, none, none, some 3⟩).1 0 =
       some { Id := 0, Name := "t", Ty := SymType.label, Value := 1
              Size := 0, Seg := Ref.id none
              Scope := Ref.id none, Parent := Ref.id (some 3) }) := by
  refine ⟨by decide, ?_⟩
  exact c10_duplicate_id_silent_overwrite emptyDbgInfo emptyDbgInfo
    ⟨0, 0, 0, 4⟩ ⟨0, 1, 8, 2⟩
    ⟨0, "s", SymType.equate, 0, 0, none, some 0, none⟩
    ⟨0, "t", SymType.label, 1, 0, none, none, some 3⟩
    rfl rfl (by decide) (by decide)

/-- A state-threading fold whose body only appends diagnostics keeps the
incoming diagnostics as a prefix. -/
theorem foldl_diag_mono (f : Nat → DbgInfo × List Diag → DbgInfo × List Diag)
    (hf : ∀ j st, ∃ t, (f j st).2 = st.2 ++ t) (l : List Nat)
    (st : DbgInfo × List Diag) :
    ∃ t, (l.foldl (fun st j => f j st) st).2 = st.2 ++ t := by
  induction l generalizing st with
  | nil => exact ⟨[], by simp⟩
  | cons j l ih =>
    obtain ⟨t1, h1⟩ := hf j st
    obtain ⟨t2, h2⟩ := ih (f j st)
    exact ⟨t1 ++ t2, by simp [h2, h1]⟩

/-- Case equation for the span-pass body: missing record, nothing happens. -/
theorem pspBody_eq_none (j : Nat) (st : DbgInfo × List Diag)
    (h : spanAt st.1 j = none) : pspBody j st = st := by
  unfold pspBody
  simp only [h]

/-- Case equation for the span-pass body: invalid segment id, the span's
segment reference is nulled and an error is appended. -/
theorem pspBody_eq_invalid (j : Nat) (st : DbgInfo × List Diag) (S : SpanInfo) (g : Nat)
    (h : spanAt st.1 j = some S) (hseg : S.Seg = Ref.id (some g))
    (hg : st.1.SegInfoById.length ≤ g) :
    pspBody j st = (modifySpan st.1 j (fun S2 => { S2 with Seg := Ref.ptr none }),
                    st.2 ++ [⟨Severity.error, "Invalid segment id for span"⟩]) := by
  unfold pspBody
  simp only [h, hseg, if_pos hg]

/-- Case equation for the span-pass body: valid segment id, the span is
relocated by the segment start. -/
theorem pspBody_eq_valid (j : Nat) (st : DbgInfo × List Diag) (S : SpanInfo) (g : Nat)
    (h : spanAt st.1 j = some S) (hseg : S.Seg = Ref.id (some g))
    (hg : ¬st.1.SegInfoById.length ≤ g) :
    pspBody j st = (modifySpan st.1 j (fun S2 =>
      { S2 with Seg := Ref.ptr (some g)
                Start := w32add S2.Start (match segAt st.1 g with | some G => G.Start | none => 0)
                End := w32add S2.End (match segAt st.1 g with | some G => G.Start | none => 0) }),
      st.2) := by
  unfold pspBody
  simp only [h, hseg, if_neg hg]

/-- Case equation for the span-pass body: a reference that is not a plain
segment id is left alone. -/
theorem pspBody_eq_other (j : Nat) (st : DbgInfo × List Diag) (S : SpanInfo)
    (h : spanAt st.1 j = some S) (hseg : ∀ g, S.Seg ≠ Ref.id (some g)) :
    pspBody j st = st := by
  unfold pspBody
  rcases hS : S.Seg with (_ | g) | o
  · simp only [h, hS]
  · exact absurd hS (hseg g)
  · simp only [h, hS]

/-- The body of the span pass only appends diagnostics. -/
theorem pspBody_diag_mono (j : Nat) (st : DbgInfo × List Diag) :
    ∃ t, (pspBody j st).2 = st.2 ++ t := by
  rcases h : spanAt st.1 j with _ | S
  · exact ⟨[], by rw [pspBody_eq_none j st h]; simp⟩
  · rcases hS : S.Seg with (_ | g) | o
    · exact ⟨[], by rw [pspBody_eq_other j st S h (by simp [hS])]; simp⟩
    · by_cases hg : st.1.SegInfoById.length ≤ g
      · exact ⟨_, by rw [pspBody_eq_invalid j st S g h hS hg]⟩
      · exact ⟨[], by rw [pspBody_eq_valid j st S g h hS hg]; simp⟩
    · exact ⟨[], by rw [pspBody_eq_other j st S h (by simp [hS])]; simp⟩

/-- The body of the span pass leaves spans at other indices unchanged and
never touches the segment collection. -/
theorem pspBody_frame (j i : Nat) (hne : j ≠ i) (st : DbgInfo × List Diag) :
    spanAt (pspBody j st).1 i = spanAt st.1 i ∧
    (pspBody j st).1.SegInfoById = st.1.SegInfoById := by
  rcases h : spanAt st.1 j with _ | S
  · rw [pspBody_eq_none j st h]
    exact ⟨rfl, rfl⟩
  · rcases hS : S.Seg with (_ | g) | o
    · rw [pspBody_eq_other j st S h (by simp [hS])]
      exact ⟨rfl, rfl⟩
    · by_cases hg : st.1.SegInfoById.length ≤ g
      · rw [pspBody_eq_invalid j st S g h hS hg]
        refine ⟨?_, rfl⟩
        simp [modifySpan, spanAt, List.getD, List.get?_eq_getElem?,
          List.getElem?_modify, hne]
      · rw [pspBody_eq_valid j st S g h hS hg]
        refine ⟨?_, rfl⟩
        simp [modifySpan, spanAt, List.getD, List.get?_eq_getElem?,
          List.getElem?_modify, hne]
    · rw [pspBody_eq_other j st S h (by simp [hS])]
      exact ⟨rfl, rfl⟩

/-- Folding span-pass bodies over indices different from `i` leaves span
`i` and the segment collection unchanged. -/
theorem pspFold_frame (l : List Nat) (i : Nat) (hl : ∀ j ∈ l, j ≠ i)
    (st : DbgInfo × List Diag) :
    spanAt ((l.foldl (fun st j => pspBody j st) st)).1 i = spanAt st.1 i ∧
    ((l.foldl (fun st j => pspBody j st) st)).1.SegInfoById = st.1.SegInfoById := by
  induction l generalizing st with
  | nil => exact ⟨rfl, rfl⟩
  | cons j l ih =>
    have hji : j ≠ i := hl j (by simp)
    have h1 := pspBody_frame j i hji st
    have h2 := ih (fun k hk => hl k (by simp [hk])) (pspBody j st)
    exact ⟨by rw [List.foldl_cons, h2.1, h1.1], by rw [List.foldl_cons, h2.2, h1.2]⟩

/-- Splitting the index list of a loop at a visited index. -/
theorem range_split (n i : Nat) (hi : i < n) :
    List.range n = List.range i ++ i :: List.range' (i + 1) (n - i - 1) := by
  rw [List.range_eq_range', List.range_eq_range']
  have h1 : List.range' 0 i ++ List.range' (0 + 1 * i) (n - i) 1 = List.range' 0 ((n - i) + i) :=
    List.range'_append 0 i (n - i) 1
  simp only [Nat.zero_add, Nat.one_mul] at h1
  have h2 : (n - i) + i = n := by omega
  rw [h2] at h1
  rw [← h1]
  obtain ⟨k, hk⟩ : ∃ k, n - i = k + 1 := ⟨n - i - 1, by omega⟩
  rw [hk]
  have h4 : k + 1 - 1 = k := by omega
  rw [h4, List.range'_succ]

/-- Reading the record mutated in place by `modifySpan` at its own index. -/
theorem spanAt_modifySpan_self (db : DbgInfo) (i : Nat) (f : SpanInfo → SpanInfo) :
    spanAt (modifySpan db i f) i = (spanAt db i).map f := by
  simp only [spanAt, modifySpan, List.getD, List.get?_eq_getElem?, List.getElem?_modify]
  rcases h : db.SpanInfoById[i]? with _ | o
  · simp
  · rcases o with _ | S <;> simp

/-- Localization of the span-pass walk: the effect of the walk on the span
at index `i` is the effect of the body at `i`, run in an intermediate
state that agrees with the initial one on that span and on the segment
collection; the body's diagnostics survive into the final state. -/
theorem pspLoop_localize (n i : Nat) (hi : i < n) (st : DbgInfo × List Diag) :
    ∃ st1 t, spanAt st1.1 i = spanAt st.1 i ∧ st1.1.SegInfoById = st.1.SegInfoById ∧
      spanAt (pspLoop n st).1 i = spanAt (pspBody i st1).1 i ∧
      (pspLoop n st).2 = (pspBody i st1).2 ++ t := by
  unfold pspLoop
  rw [range_split n i hi, List.foldl_append, List.foldl_cons]
  have hpre := pspFold_frame (List.range i) i
    (by intro j hj; rw [List.mem_range] at hj; omega) st
  have hsuf := pspFold_frame (List.range' (i + 1) (n - i - 1)) i
    (by intro j hj
        rw [List.mem_range'] at hj
        obtain ⟨k, _, hk⟩ := hj
        omega)
    (pspBody i ((List.range i).foldl (fun st j => pspBody j st) st))
  have hdia := foldl_diag_mono pspBody pspBody_diag_mono
    (List.range' (i + 1) (n - i - 1))
    (pspBody i ((List.range i).foldl (fun st j => pspBody j st) st))
  obtain ⟨t, ht⟩ := hdia
  exact ⟨(List.range i).foldl (fun st j => pspBody j st) st, t,
    hpre.1, hpre.2, hsuf.1, ht⟩

/-- Claim C1, counterexample: on an input that parses with zero errors but
carries an invalid file id, the resolver emits an error-severity
diagnostic, yet `cc65_read_dbginfo` returns a (non-null) handle - the
claim says the handle must be null. -/
theorem c1_counterexample :
    (cc65_read_dbginfo 2 0 resolverErrInput).1.isSome = true ∧
    errCount (parseRecords resolverErrInput).2 = 0 ∧
    (⟨Severity.error, "Invalid file id for line"⟩ : Diag) ∈
      (cc65_read_dbginfo 2 0 resolverErrInput).2 := by
  refine ⟨rfl, rfl, ?_⟩
  show _ ∈ (cc65_read_dbginfo 2 0 resolverErrInput).2
  have : (cc65_read_dbginfo 2 0 resolverErrInput).2 =
      [⟨Severity.error, "Invalid file id for line"⟩] := by rfl
  rw [this]
  exact List.mem_singleton.mpr rfl

/-- Claim C1, amended: the resolver does emit an error-severity diagnostic
for an id-range violation and replaces the bad reference with null (shown
here for the span→segment reference of the cited `ProcessSpanInfo`), but
`cc65_read_dbginfo` does not return a null handle for resolver errors:
whenever the parse phase itself produced no error, the reader returns the
resolved database, because `D->Errors` is only inspected before the
resolution passes run. -/
theorem c1_amended_load_ignores_resolver_errors (rs : List Record)
    (h0 : errCount (parseRecords rs).2 = 0) :
    (cc65_read_dbginfo 2 0 rs).1 = some (resolve (parseRecords rs).1).1 ∧
    (∀ (db : DbgInfo) (i : Nat) (S : SpanInfo) (g : Nat),
      spanAt db i = some S → S.Seg = Ref.id (some g) →
      db.SegInfoById.length ≤ g → i < db.SpanInfoById.length →
      spanAt (processSpanInfo db).1 i = some { S with Seg := Ref.ptr none } ∧
      (⟨Severity.error, "Invalid segment id for span"⟩ : Diag) ∈ (processSpanInfo db).2) := by
  constructor
  · simp only [cc65_read_dbginfo, VER_MAJOR, VER_MINOR]
    norm_num
    rw [h0]
    norm_num
  · intro db i S g hS hseg hg hi
    obtain ⟨st1, t, ha, hb, hc, hd⟩ :=
      pspLoop_localize db.SpanInfoById.length i hi (db, [])
    have hS1 : spanAt st1.1 i = some S := by rw [ha]; exact hS
    have hg1 : st1.1.SegInfoById.length ≤ g := by rw [hb]; exact hg
    have heq := pspBody_eq_invalid i st1 S g hS1 hseg hg1
    constructor
    · show spanAt (pspLoop db.SpanInfoById.length (db, [])).1 i = _
      rw [hc, heq]
      show spanAt (modifySpan st1.1 i _) i = _
      rw [spanAt_modifySpan_self, hS1]
      rfl
    · show _ ∈ (pspLoop db.SpanInfoById.length (db, [])).2
      rw [hd, heq]
      simp

/-- Witness for the amended C1 at the empty record list. -/
theorem c1_amended_witness :
    errCount (parseRecords []).2 = 0 ∧
    ((cc65_read_dbginfo 2 0 []).1 = some (resolve (parseRecords []).1).1 ∧
    (∀ (db : DbgInfo) (i : Nat) (S : SpanInfo) (g : Nat),
      spanAt db i = some S → S.Seg = Ref.id (some g) →
      db.SegInfoById.length ≤ g → i < db.SpanInfoById.length →
      spanAt (processSpanInfo db).1 i = some { S with Seg := Ref.ptr none } ∧
      (⟨Severity.error, "Invalid segment id for span"⟩ : Diag) ∈ (processSpanInfo db).2)) :=
  ⟨by decide, c1_amended_load_ignores_resolver_errors [] (by decide)⟩




-- slot lemmas
theorem modAt_out (db : DbgInfo) (m : Nat) (h : db.ModInfoById.length ≤ m) :
    modAt db m = none := by
  simp [modAt, List.getD, List.get?_eq_getElem?, List.getElem?_eq_none h]

theorem modAt_modifyScope (db : DbgInfo) (i m : Nat) (f : ScopeInfo → ScopeInfo) :
    modAt (modifyScope db i f) m = modAt db m := rfl

theorem modAt_modifySpan (db : DbgInfo) (i m : Nat) (f : SpanInfo → SpanInfo) :
    modAt (modifySpan db i f) m = modAt db m := rfl

theorem scopeAt_modifyMod (db : DbgInfo) (i k : Nat) (f : ModInfo → ModInfo) :
    scopeAt (modifyMod db i f) k = scopeAt db k := rfl

theorem scopeAt_modifySpan (db : DbgInfo) (i k : Nat) (f : SpanInfo → SpanInfo) :
    scopeAt (modifySpan db i f) k = scopeAt db k := rfl

theorem modAt_modifyMod_self (db : DbgInfo) (i : Nat) (f : ModInfo → ModInfo) :
    modAt (modifyMod db i f) i = (modAt db i).map f := by
  simp only [modAt, modifyMod, List.getD, List.get?_eq_getElem?, List.getElem?_modify]
  rcases h : db.ModInfoById[i]? with _ | o
  · simp
  · rcases o with _ | M <;> simp

theorem modAt_modifyMod_ne (db : DbgInfo) (i j : Nat) (hne : i ≠ j) (f : ModInfo → ModInfo) :
    modAt (modifyMod db i f) j = modAt db j := by
  simp [modifyMod, modAt, List.getD, List.get?_eq_getElem?, List.getElem?_modify, hne]

theorem scopeAt_modifyScope_ne (db : DbgInfo) (i j : Nat) (hne : i ≠ j)
    (f : ScopeInfo → ScopeInfo) :
    scopeAt (modifyScope db i f) j = scopeAt db j := by
  simp [modifyScope, scopeAt, List.getD, List.get?_eq_getElem?, List.getElem?_modify, hne]

theorem mainScopeOf_modifyScope (db : DbgInfo) (i m : Nat) (f : ScopeInfo → ScopeInfo) :
    mainScopeOf (modifyScope db i f) m = mainScopeOf db m := rfl

theorem mainScopeOf_modifySpan (db : DbgInfo) (i m : Nat) (f : SpanInfo → SpanInfo) :
    mainScopeOf (modifySpan db i f) m = mainScopeOf db m := rfl

theorem modAt_isSome_modifyMod (db : DbgInfo) (i m : Nat) (f : ModInfo → ModInfo) :
    (modAt (modifyMod db i f) m).isSome = (modAt db m).isSome := by
  by_cases him : i = m
  · subst him
    rw [modAt_modifyMod_self]
    rcases modAt db i with _ | M <;> rfl
  · rw [modAt_modifyMod_ne db i m him f]

-- psiResolveMod facts
theorem psiResolveMod_main (i m : Nat) (st : DbgInfo × List Diag) :
    mainScopeOf (psiResolveMod i st).1 m =
      (if isParentlessFor st.1 m i then some i else mainScopeOf st.1 m) := by
  unfold psiResolveMod isParentlessFor
  rcases h : scopeAt st.1 i with _ | S
  · simp [h]
  · rcases hM : S.Mod with (_ | m2) | o
    · simp [h, hM]
    · by_cases hl : st.1.ModInfoById.length ≤ m2
      · simp only [h, hM, if_pos hl]
        by_cases hmm : m2 = m
        · subst hmm
          have hout : modAt st.1 m2 = none := modAt_out st.1 m2 hl
          simp [mainScopeOf, modAt_modifyScope, hout]
        · simp [mainScopeOf_modifyScope, hM, hmm]
      · simp only [h, hM, if_neg hl]
        by_cases hp : S.Parent = Ref.id none
        · rw [if_pos hp]
          by_cases hmm : m2 = m
          · subst hmm
            unfold mainScopeOf
            rw [modAt_modifyMod_self, modAt_modifyMod_self, modAt_modifyScope]
            rcases hmod : modAt st.1 m2 with _ | M
            · simp [hmod]
            · simp [hmod, hp]
          · unfold mainScopeOf
            rw [modAt_modifyMod_ne _ _ _ hmm, modAt_modifyMod_ne _ _ _ hmm,
              modAt_modifyScope]
            simp [hmm]
        · rw [if_neg hp]
          by_cases hmm : m2 = m
          · subst hmm
            unfold mainScopeOf
            rw [modAt_modifyMod_self, modAt_modifyScope]
            rcases hmod : modAt st.1 m2 with _ | M
            · simp [hp]
            · simp [hp]
          · unfold mainScopeOf
            rw [modAt_modifyMod_ne _ _ _ hmm, modAt_modifyScope]
            simp [hmm, hp]
    · simp [h, hM]

theorem psiResolveMod_scope_ne (i k : Nat) (hne : i ≠ k) (st : DbgInfo × List Diag) :
    scopeAt (psiResolveMod i st).1 k = scopeAt st.1 k := by
  unfold psiResolveMod
  rcases h : scopeAt st.1 i with _ | S
  · simp [h]
  · rcases hM : S.Mod with (_ | m2) | o
    · simp [h, hM]
    · by_cases hl : st.1.ModInfoById.length ≤ m2
      · simp only [h, hM, if_pos hl]
        exact scopeAt_modifyScope_ne st.1 i k hne _
      · simp only [h, hM, if_neg hl]
        by_cases hp : S.Parent = Ref.id none
        · rw [if_pos hp, scopeAt_modifyMod, scopeAt_modifyMod]
          exact scopeAt_modifyScope_ne st.1 i k hne _
        · rw [if_neg hp, scopeAt_modifyMod]
          exact scopeAt_modifyScope_ne st.1 i k hne _
    · simp [h, hM]

theorem psiResolveMod_isSome (i m : Nat) (st : DbgInfo × List Diag) :
    (modAt (psiResolveMod i st).1 m).isSome = (modAt st.1 m).isSome := by
  unfold psiResolveMod
  rcases h : scopeAt st.1 i with _ | S
  · simp [h]
  · rcases hM : S.Mod with (_ | m2) | o
    · simp [h, hM]
    · by_cases hl : st.1.ModInfoById.length ≤ m2
      · simp only [h, hM, if_pos hl]
        rw [modAt_modifyScope]
      · simp only [h, hM, if_neg hl]
        by_cases hp : S.Parent = Ref.id none
        · rw [if_pos hp, modAt_isSome_modifyMod, modAt_isSome_modifyMod,
            modAt_modifyScope]
        · rw [if_neg hp, modAt_isSome_modifyMod, modAt_modifyScope]
    · simp [h, hM]

theorem psiResolveMod_modLen (i : Nat) (st : DbgInfo × List Diag) :
    (psiResolveMod i st).1.ModInfoById.length = st.1.ModInfoById.length := by
  unfold psiResolveMod
  rcases h : scopeAt st.1 i with _ | S
  · simp [h]
  · rcases hM : S.Mod with (_ | m2) | o
    · simp [h, hM]
    · by_cases hl : st.1.ModInfoById.length ≤ m2
      · simp only [h, hM, if_pos hl]
        rfl
      · simp only [h, hM, if_neg hl]
        by_cases hp : S.Parent = Ref.id none
        · rw [if_pos hp]
          simp [modifyMod, modifyScope]
        · rw [if_neg hp]
          simp [modifyMod, modifyScope]
    · simp [h, hM]

theorem psiResolveMod_diag (i : Nat) (st : DbgInfo × List Diag) :
    ∃ t, (psiResolveMod i st).2 = st.2 ++ t ∧ t.countP noMainMsg = 0 := by
  unfold psiResolveMod
  rcases h : scopeAt st.1 i with _ | S
  · exact ⟨[], by simp [h], rfl⟩
  · rcases hM : S.Mod with (_ | m2) | o
    · exact ⟨[], by simp [h, hM], rfl⟩
    · by_cases hl : st.1.ModInfoById.length ≤ m2
      · refine ⟨[⟨Severity.error, "Invalid module id for scope"⟩], ?_, by decide⟩
        simp only [h, hM, if_pos hl]
      · refine ⟨[], ?_, rfl⟩
        simp only [h, hM, if_neg hl]
        simp
    · exact ⟨[], by simp [h, hM], rfl⟩

-- psiResolveParent facts
theorem psiResolveParent_mods (i : Nat) (st : DbgInfo × List Diag) :
    (psiResolveParent i st).1.ModInfoById = st.1.ModInfoById := by
  unfold psiResolveParent
  rcases h : scopeAt st.1 i with _ | S
  · rfl
  · rcases hP : S.Parent with (_ | p) | o
    · simp only [h, hP]
      rfl
    · by_cases hl : st.1.ScopeInfoById.length ≤ p
      · simp only [h, hP, if_pos hl]
        rfl
      · simp only [h, hP, if_neg hl]
        rfl
    · simp only [h, hP]

theorem psiResolveParent_scope_ne (i k : Nat) (hne : i ≠ k) (st : DbgInfo × List Diag) :
    scopeAt (psiResolveParent i st).1 k = scopeAt st.1 k := by
  unfold psiResolveParent
  rcases h : scopeAt st.1 i with _ | S
  · rfl
  · rcases hP : S.Parent with (_ | p) | o
    · simp only [h, hP]
      exact scopeAt_modifyScope_ne st.1 i k hne _
    · by_cases hl : st.1.ScopeInfoById.length ≤ p
      · simp only [h, hP, if_pos hl]
        exact scopeAt_modifyScope_ne st.1 i k hne _
      · simp only [h, hP, if_neg hl]
        exact scopeAt_modifyScope_ne st.1 i k hne _
    · simp only [h, hP]

theorem psiResolveParent_diag (i : Nat) (st : DbgInfo × List Diag) :
    ∃ t, (psiResolveParent i st).2 = st.2 ++ t ∧ t.countP noMainMsg = 0 := by
  unfold psiResolveParent
  rcases h : scopeAt st.1 i with _ | S
  · exact ⟨[], by simp, rfl⟩
  · rcases hP : S.Parent with (_ | p) | o
    · exact ⟨[], by simp [h, hP], rfl⟩
    · by_cases hl : st.1.ScopeInfoById.length ≤ p
      · refine ⟨[⟨Severity.error, "Invalid parent scope id for scope"⟩], ?_, by decide⟩
        simp only [h, hP, if_pos hl]
      · exact ⟨[], by simp only [h, hP, if_neg hl]; simp, rfl⟩
    · exact ⟨[], by simp [h, hP], rfl⟩

-- psiResolveLabel facts
theorem psiResolveLabel_mods (i : Nat) (st : DbgInfo × List Diag) :
    (psiResolveLabel i st).1.ModInfoById = st.1.ModInfoById := by
  unfold psiResolveLabel
  rcases h : scopeAt st.1 i with _ | S
  · rfl
  · rcases hL : S.Label with (_ | l) | o
    · simp only [h, hL]
      rfl
    · by_cases hl : st.1.SymInfoById.length ≤ l
      · simp only [h, hL, if_pos hl]
        rfl
      · simp only [h, hL, if_neg hl]
        rfl
    · simp only [h, hL]

theorem psiResolveLabel_scope_ne (i k : Nat) (hne : i ≠ k) (st : DbgInfo × List Diag) :
    scopeAt (psiResolveLabel i st).1 k = scopeAt st.1 k := by
  unfold psiResolveLabel
  rcases h : scopeAt st.1 i with _ | S
  · rfl
  · rcases hL : S.Label with (_ | l) | o
    · simp only [h, hL]
      exact scopeAt_modifyScope_ne st.1 i k hne _
    · by_cases hl : st.1.SymInfoById.length ≤ l
      · simp only [h, hL, if_pos hl]
        exact scopeAt_modifyScope_ne st.1 i k hne _
      · simp only [h, hL, if_neg hl]
        exact scopeAt_modifyScope_ne st.1 i k hne _
    · simp only [h, hL]

theorem psiResolveLabel_diag (i : Nat) (st : DbgInfo × List Diag) :
    ∃ t, (psiResolveLabel i st).2 = st.2 ++ t ∧ t.countP noMainMsg = 0 := by
  unfold psiResolveLabel
  rcases h : scopeAt st.1 i with _ | S
  · exact ⟨[], by simp, rfl⟩
  · rcases hL : S.Label with (_ | l) | o
    · exact ⟨[], by simp [h, hL], rfl⟩
    · by_cases hl : st.1.SymInfoById.length ≤ l
      · refine ⟨[⟨Severity.error, "Invalid label id for scope"⟩], ?_, by decide⟩
        simp only [h, hL, if_pos hl]
      · exact ⟨[], by simp only [h, hL, if_neg hl]; simp, rfl⟩
    · exact ⟨[], by simp [h, hL], rfl⟩

-- psiSpanBody facts
theorem psiSpanBody_mods (i j : Nat) (st : DbgInfo × List Diag) :
    (psiSpanBody i j st).1.ModInfoById = st.1.ModInfoById := by
  unfold psiSpanBody
  rcases h : scopeAt st.1 i with _ | S
  · rfl
  · rcases hR : S.SpanInfoList.getD j (Ref.ptr none) with (_ | sid) | o
    · simp only [h, hR]
    · by_cases hl : st.1.SpanInfoById.length ≤ sid
      · simp only [h, hR, if_pos hl]
        rfl
      · simp only [h, hR, if_neg hl]
        rfl
    · simp only [h, hR]

theorem psiSpanBody_scope_ne (i j k : Nat) (hne : i ≠ k) (st : DbgInfo × List Diag) :
    scopeAt (psiSpanBody i j st).1 k = scopeAt st.1 k := by
  unfold psiSpanBody
  rcases h : scopeAt st.1 i with _ | S
  · rfl
  · rcases hR : S.SpanInfoList.getD j (Ref.ptr none) with (_ | sid) | o
    · simp only [h, hR]
    · by_cases hl : st.1.SpanInfoById.length ≤ sid
      · simp only [h, hR, if_pos hl]
        exact scopeAt_modifyScope_ne st.1 i k hne _
      · simp only [h, hR, if_neg hl]
        rw [scopeAt_modifySpan]
        exact scopeAt_modifyScope_ne st.1 i k hne _
    · simp only [h, hR]

theorem psiSpanBody_diag (i j : Nat) (st : DbgInfo × List Diag) :
    ∃ t, (psiSpanBody i j st).2 = st.2 ++ t ∧ t.countP noMainMsg = 0 := by
  unfold psiSpanBody
  rcases h : scopeAt st.1 i with _ | S
  · exact ⟨[], by simp, rfl⟩
  · rcases hR : S.SpanInfoList.getD j (Ref.ptr none) with (_ | sid) | o
    · exact ⟨[], by simp only [h, hR]; simp, rfl⟩
    · by_cases hl : st.1.SpanInfoById.length ≤ sid
      · refine ⟨[⟨Severity.error, "Invalid span id for scope"⟩], ?_, by decide⟩
        simp only [h, hR, if_pos hl]
      · exact ⟨[], by simp only [h, hR, if_neg hl]; simp, rfl⟩
    · exact ⟨[], by simp only [h, hR]; simp, rfl⟩

-- span fold facts
theorem psiSpanFold_facts (i : Nat) (l : List Nat) (st : DbgInfo × List Diag) :
    ((l.foldl (fun st j => psiSpanBody i j st) st)).1.ModInfoById = st.1.ModInfoById ∧
    (∀ k, i ≠ k →
      scopeAt ((l.foldl (fun st j => psiSpanBody i j st) st)).1 k = scopeAt st.1 k) ∧
    ∃ t, ((l.foldl (fun st j => psiSpanBody i j st) st)).2 = st.2 ++ t ∧
      t.countP noMainMsg = 0 := by
  induction l generalizing st with
  | nil => exact ⟨rfl, fun k _ => rfl, ⟨[], by simp, rfl⟩⟩
  | cons j l ih =>
    obtain ⟨ih1, ih2, t2, iht, ihc⟩ := ih (psiSpanBody i j st)
    obtain ⟨t1, ht1, hc1⟩ := psiSpanBody_diag i j st
    refine ⟨?_, ?_, ⟨t1 ++ t2, ?_, ?_⟩⟩
    · rw [List.foldl_cons, ih1, psiSpanBody_mods]
    · intro k hk
      rw [List.foldl_cons, ih2 k hk, psiSpanBody_scope_ne i j k hk]
    · rw [List.foldl_cons, iht, ht1, List.append_assoc]
    · simp [List.countP_append, hc1, ihc]

-- congruence helpers
theorem modAt_congr (db1 db2 : DbgInfo) (m : Nat)
    (h : db1.ModInfoById = db2.ModInfoById) : modAt db1 m = modAt db2 m := by
  unfold modAt
  rw [h]

theorem mainScopeOf_congr (db1 db2 : DbgInfo) (m : Nat)
    (h : db1.ModInfoById = db2.ModInfoById) :
    mainScopeOf db1 m = mainScopeOf db2 m := by
  unfold mainScopeOf
  rw [modAt_congr db1 db2 m h]

theorem mainScopeOf_modifyMod_pres (db : DbgInfo) (i m : Nat) (f : ModInfo → ModInfo)
    (hf : ∀ M, (f M).MainScope = M.MainScope) :
    mainScopeOf (modifyMod db i f) m = mainScopeOf db m := by
  by_cases him : i = m
  · subst him
    unfold mainScopeOf
    rw [modAt_modifyMod_self]
    rcases modAt db i with _ | M
    · rfl
    · simp [hf]
  · unfold mainScopeOf
    rw [modAt_modifyMod_ne db i m him f]

theorem isParentlessFor_congr (db1 db2 : DbgInfo) (m k : Nat)
    (hs : scopeAt db1 k = scopeAt db2 k)
    (hm : (modAt db1 m).isSome = (modAt db2 m).isSome) :
    isParentlessFor db1 m k = isParentlessFor db2 m k := by
  unfold isParentlessFor
  rw [hs, hm]

-- psiBody assembled facts
theorem psiBody_main (i m : Nat) (st : DbgInfo × List Diag) :
    mainScopeOf (psiBody i st).1 m =
      (if isParentlessFor st.1 m i then some i else mainScopeOf st.1 m) := by
  unfold psiBody
  rcases h : scopeAt st.1 i with _ | S
  · have hfalse : isParentlessFor st.1 m i = false := by
      unfold isParentlessFor
      simp [h]
    simp [h, hfalse]
  · simp only [h]
    unfold psiSpanLoop
    rw [mainScopeOf_congr _ _ m (psiSpanFold_facts i (List.range _) _).1]
    rw [mainScopeOf_congr _ _ m (psiResolveLabel_mods i _)]
    rw [mainScopeOf_congr _ _ m (psiResolveParent_mods i _)]
    exact psiResolveMod_main i m st

theorem psiBody_scope_ne (i k : Nat) (hne : i ≠ k) (st : DbgInfo × List Diag) :
    scopeAt (psiBody i st).1 k = scopeAt st.1 k := by
  unfold psiBody
  rcases h : scopeAt st.1 i with _ | S
  · simp [h]
  · simp only [h]
    unfold psiSpanLoop
    rw [(psiSpanFold_facts i (List.range _) _).2.1 k hne]
    rw [psiResolveLabel_scope_ne i k hne, psiResolveParent_scope_ne i k hne,
      psiResolveMod_scope_ne i k hne]

theorem psiBody_isSome (i m : Nat) (st : DbgInfo × List Diag) :
    (modAt (psiBody i st).1 m).isSome = (modAt st.1 m).isSome := by
  unfold psiBody
  rcases h : scopeAt st.1 i with _ | S
  · simp [h]
  · simp only [h]
    unfold psiSpanLoop
    rw [modAt_congr _ _ m (psiSpanFold_facts i (List.range _) _).1]
    rw [modAt_congr _ _ m (psiResolveLabel_mods i _)]
    rw [modAt_congr _ _ m (psiResolveParent_mods i _)]
    exact psiResolveMod_isSome i m st

theorem psiBody_modLen (i : Nat) (st : DbgInfo × List Diag) :
    (psiBody i st).1.ModInfoById.length = st.1.ModInfoById.length := by
  unfold psiBody
  rcases h : scopeAt st.1 i with _ | S
  · simp [h]
  · simp only [h]
    unfold psiSpanLoop
    rw [(psiSpanFold_facts i (List.range _) _).1]
    rw [psiResolveLabel_mods i _, psiResolveParent_mods i _]
    exact psiResolveMod_modLen i st

theorem psiStep_diag_aux (i n : Nat) (st : DbgInfo × List Diag) :
    ∃ t, ((List.range n).foldl (fun st j => psiSpanBody i j st)
        (psiResolveLabel i (psiResolveParent i (psiResolveMod i st)))).2 = st.2 ++ t ∧
      t.countP noMainMsg = 0 := by
  obtain ⟨t1, h1, c1⟩ := psiResolveMod_diag i st
  obtain ⟨t2, h2, c2⟩ := psiResolveParent_diag i (psiResolveMod i st)
  obtain ⟨t3, h3, c3⟩ := psiResolveLabel_diag i (psiResolveParent i (psiResolveMod i st))
  obtain ⟨t4, h4, c4⟩ := (psiSpanFold_facts i (List.range n)
    (psiResolveLabel i (psiResolveParent i (psiResolveMod i st)))).2.2
  refine ⟨t1 ++ t2 ++ t3 ++ t4, ?_, ?_⟩
  · rw [h4, h3, h2, h1]
    simp
  · simp [List.countP_append, c1, c2, c3, c4]

theorem psiBody_diag (i : Nat) (st : DbgInfo × List Diag) :
    ∃ t, (psiBody i st).2 = st.2 ++ t ∧ t.countP noMainMsg = 0 := by
  unfold psiBody
  rcases h : scopeAt st.1 i with _ | S
  · exact ⟨[], by simp [h], rfl⟩
  · simp only [h]
    unfold psiSpanLoop
    exact psiStep_diag_aux i _ st

-- getLast? helper
theorem getLast?_or_cons (a : Nat) (xs : List Nat) (y : Option Nat) :
    ((a :: xs).getLast?).or y = (xs.getLast?).or (some a) := by
  induction xs generalizing a y with
  | nil => simp
  | cons b bs ih =>
    rw [List.getLast?_cons_cons, ih b y, ih b (some a)]

-- the scope-pass fold: last parentless scope wins
theorem psiFold_main (db0 : DbgInfo) (m : Nat) (l : List Nat)
    (st : DbgInfo × List Diag) (hl : l.Pairwise (fun a b => a ≠ b))
    (hsc : ∀ k ∈ l, scopeAt st.1 k = scopeAt db0 k)
    (hmod : (modAt st.1 m).isSome = (modAt db0 m).isSome) :
    mainScopeOf ((l.foldl (fun st i => psiBody i st) st)).1 m =
      ((l.filter (fun k => isParentlessFor db0 m k)).getLast?).or
        (mainScopeOf st.1 m) := by
  induction l generalizing st with
  | nil => simp
  | cons i l ih =>
    rw [List.foldl_cons]
    rw [List.pairwise_cons] at hl
    have hne : ∀ b ∈ l, i ≠ b := hl.1
    have hIH := ih (psiBody i st) hl.2
      (fun k hk => by
        rw [psiBody_scope_ne i k (hne k hk), hsc k (List.mem_cons_of_mem i hk)])
      (by rw [psiBody_isSome, hmod])
    rw [hIH]
    have hpi : isParentlessFor st.1 m i = isParentlessFor db0 m i :=
      isParentlessFor_congr _ _ m i (hsc i (List.mem_cons_self i l)) hmod
    rw [psiBody_main, hpi]
    by_cases hq : isParentlessFor db0 m i = true
    · rw [if_pos hq]
      have hfc : List.filter (fun k => isParentlessFor db0 m k) (i :: l) =
          i :: List.filter (fun k => isParentlessFor db0 m k) l := by
        simp [List.filter_cons, hq]
      rw [hfc, getLast?_or_cons]
    · rw [if_neg hq]
      have hfc : List.filter (fun k => isParentlessFor db0 m k) (i :: l) =
          List.filter (fun k => isParentlessFor db0 m k) l := by
        simp [List.filter_cons, hq]
      rw [hfc]

-- fold preservation facts for the scope pass
theorem psiFold_facts (l : List Nat) (st : DbgInfo × List Diag) :
    ((l.foldl (fun st i => psiBody i st) st)).1.ModInfoById.length =
      st.1.ModInfoById.length ∧
    (∀ m, (modAt ((l.foldl (fun st i => psiBody i st) st)).1 m).isSome =
      (modAt st.1 m).isSome) ∧
    ∃ t, ((l.foldl (fun st i => psiBody i st) st)).2 = st.2 ++ t ∧
      t.countP noMainMsg = 0 := by
  induction l generalizing st with
  | nil => exact ⟨rfl, fun m => rfl, ⟨[], by simp, rfl⟩⟩
  | cons i l ih =>
    obtain ⟨ih1, ih2, t2, iht, ihc⟩ := ih (psiBody i st)
    obtain ⟨t1, ht1, hc1⟩ := psiBody_diag i st
    refine ⟨?_, ?_, ⟨t1 ++ t2, ?_, ?_⟩⟩
    · rw [List.foldl_cons, ih1, psiBody_modLen]
    · intro m
      rw [List.foldl_cons, ih2 m, psiBody_isSome]
    · rw [List.foldl_cons, iht, ht1, List.append_assoc]
    · simp [List.countP_append, hc1, ihc]

theorem psiLoop_main (db : DbgInfo) (m : Nat) :
    mainScopeOf (psiLoop db.ScopeInfoById.length (db, [])).1 m =
      ((parentlessScopes db m).getLast?).or (mainScopeOf db m) := by
  unfold psiLoop parentlessScopes
  exact psiFold_main db m (List.range db.ScopeInfoById.length) (db, [])
    ((List.pairwise_lt_range db.ScopeInfoById.length).imp Nat.ne_of_lt)
    (fun k _ => rfl) rfl

-- psiModBody facts
theorem psiModBody_main (i m : Nat) (st : DbgInfo × List Diag) :
    mainScopeOf (psiModBody i st).1 m = mainScopeOf st.1 m := by
  unfold psiModBody
  exact mainScopeOf_modifyMod_pres st.1 i m _ (fun M => rfl)

theorem psiModBody_isSome (i m : Nat) (st : DbgInfo × List Diag) :
    (modAt (psiModBody i st).1 m).isSome = (modAt st.1 m).isSome := by
  unfold psiModBody
  exact modAt_isSome_modifyMod st.1 i m _

theorem psiModBody_count (i : Nat) (st : DbgInfo × List Diag) :
    ((psiModBody i st).2).countP noMainMsg = st.2.countP noMainMsg +
      (if (modAt st.1 i).isSome && decide (mainScopeOf st.1 i = none)
       then 1 else 0) := by
  unfold psiModBody
  rcases h : modAt st.1 i with _ | M
  · simp [h, mainScopeOf]
  · by_cases hms : M.MainScope = none
    · simp [h, hms, mainScopeOf, List.countP_append, noMainMsg]
    · simp [h, hms, mainScopeOf]

theorem psiModFold_count (l : List Nat) (st : DbgInfo × List Diag) :
    (((l.foldl (fun st i => psiModBody i st) st)).2).countP noMainMsg =
      st.2.countP noMainMsg +
      l.countP (fun i => (modAt st.1 i).isSome &&
        decide (mainScopeOf st.1 i = none)) := by
  induction l generalizing st with
  | nil => simp
  | cons i l ih =>
    rw [List.foldl_cons, ih (psiModBody i st)]
    have hfun : (fun j => (modAt (psiModBody i st).1 j).isSome &&
        decide (mainScopeOf (psiModBody i st).1 j = none)) =
        (fun j => (modAt st.1 j).isSome && decide (mainScopeOf st.1 j = none)) := by
      funext j
      rw [psiModBody_isSome, psiModBody_main]
    rw [hfun, psiModBody_count, List.countP_cons]
    omega

theorem psiModFold_main (l : List Nat) (m : Nat) (st : DbgInfo × List Diag) :
    mainScopeOf ((l.foldl (fun st i => psiModBody i st) st)).1 m =
      mainScopeOf st.1 m := by
  induction l generalizing st with
  | nil => rfl
  | cons i l ih =>
    rw [List.foldl_cons, ih (psiModBody i st), psiModBody_main]

-- deciding emptiness through getLast?
theorem getLast?_none_isEmpty (l : List Nat) :
    decide (l.getLast? = none) = l.isEmpty := by
  cases l with
  | nil => simp
  | cons a l => simp [List.getLast?_cons_cons]

-- top-level: main scope after the whole scope pass
theorem processScopeInfo_main (db : DbgInfo) (m : Nat) :
    mainScopeOf (processScopeInfo db).1 m =
      ((parentlessScopes db m).getLast?).or (mainScopeOf db m) := by
  unfold processScopeInfo psiModLoop
  rw [psiModFold_main]
  exact psiLoop_main db m

-- top-level: number of "no main scope" errors
theorem processScopeInfo_count (db : DbgInfo)
    (hinit : ∀ i < db.ModInfoById.length, mainScopeOf db i = none) :
    ((processScopeInfo db).2).countP noMainMsg =
      ((List.range db.ModInfoById.length).filter
        (fun i => (modAt db i).isSome && (parentlessScopes db i).isEmpty)).length := by
  unfold processScopeInfo psiModLoop
  rw [psiModFold_count]
  obtain ⟨hlen, hsome, t, ht, hc⟩ :=
    psiFold_facts (List.range db.ScopeInfoById.length) (db, [])
  have hloop2 : (psiLoop db.ScopeInfoById.length (db, [])).2 = t := by
    unfold psiLoop
    rw [ht]
    simp
  have hlen2 : (psiLoop db.ScopeInfoById.length (db, [])).1.ModInfoById.length =
      db.ModInfoById.length := by
    unfold psiLoop
    exact hlen
  rw [hloop2, hc, hlen2, Nat.zero_add]
  rw [List.countP_eq_length_filter]
  congr 1
  apply List.filter_congr
  intro i hi
  rw [List.mem_range] at hi
  have h1 : (modAt (psiLoop db.ScopeInfoById.length (db, [])).1 i).isSome =
      (modAt db i).isSome := by
    unfold psiLoop
    exact hsome i
  have h2 : mainScopeOf (psiLoop db.ScopeInfoById.length (db, [])).1 i =
      (parentlessScopes db i).getLast? := by
    rw [psiLoop_main db i, hinit i hi]
    cases (parentlessScopes db i).getLast? <;> rfl
  rw [h1, h2, getLast?_none_isEmpty]



/-- Claim C7, counterexample: an input whose single module owns two
parentless scopes loads without any diagnostic; `ProcessScopeInfo`
silently lets the later scope overwrite the earlier main-scope mark, so
the final main scope is scope 1, not a unique scope, and the load does
not fail as the claim demands.  Conversely, an input whose module has NO
parentless scope draws the "Module has no main scope" error, but even
that does not make the load fail: `ProcessScopeInfo` runs after the
`D.Errors` gate of `cc65_read_dbginfo`, so the handle is still
returned. -/
theorem c7_counterexample :
    parentlessScopes (parseRecords twoMainInput).1 0 = [0, 1] ∧
    (parseRecords twoMainInput).2 = [] ∧
    (cc65_read_dbginfo 2 0 twoMainInput).2 = [] ∧
    ((cc65_read_dbginfo 2 0 twoMainInput).1.map (fun db => mainScopeOf db 0)) =
      some (some 1) ∧
    parentlessScopes (parseRecords noMainInput).1 0 = [] ∧
    (cc65_read_dbginfo 2 0 noMainInput).1.isSome = true ∧
    (cc65_read_dbginfo 2 0 noMainInput).2 =
      [⟨Severity.error, "Module has no main scope"⟩] :=
  ⟨rfl, rfl, rfl, rfl, rfl, rfl, rfl⟩

/-- Claim C7, amended: in `ProcessScopeInfo` the last parentless scope
of a module (in walk order) wins the main-scope mark - duplicates are
not diagnosed - and the "Module has no main scope" error is emitted
exactly once per present module that has no parentless scope at all. -/
theorem c7_amended_last_parentless_scope_wins (db : DbgInfo)
    (hinit : ∀ i < db.ModInfoById.length, mainScopeOf db i = none) :
    (∀ m, mainScopeOf (processScopeInfo db).1 m =
       (parentlessScopes db m).getLast?) ∧
    ((processScopeInfo db).2).countP noMainMsg =
      ((List.range db.ModInfoById.length).filter
        (fun i => (modAt db i).isSome && (parentlessScopes db i).isEmpty)).length := by
  constructor
  · intro m
    rw [processScopeInfo_main db m]
    by_cases hm : m < db.ModInfoById.length
    · rw [hinit m hm]
      cases (parentlessScopes db m).getLast? <;> rfl
    · have : mainScopeOf db m = none := by
        unfold mainScopeOf
        rw [modAt_out db m (by omega)]
      rw [this]
      cases (parentlessScopes db m).getLast? <;> rfl
  · exact processScopeInfo_count db hinit

/-- Claim C7, witness: the amended statement evaluated on the two-scope
fixture - the main scope of module 0 is scope 1 and no main-scope error
is emitted. -/
theorem c7_amended_witness :
    mainScopeOf (processScopeInfo (parseRecords twoMainInput).1).1 0 = some 1 ∧
    ((processScopeInfo (parseRecords twoMainInput).1).2).countP noMainMsg = 0 := by
  have h := c7_amended_last_parentless_scope_wins (parseRecords twoMainInput).1
    (by decide)
  exact ⟨by rw [h.1 0]; rfl, by rw [h.2]; rfl⟩




theorem findLineLoop_sound (db : DbgInfo) (l : List Nat) (line : Nat) (li : Nat)
    (fuel : Nat) (lo hi : Int)
    (h : findLineLoop db l line fuel lo hi = some li) :
    li ∈ l ∧ lineNumOf db li = line := by
  induction fuel generalizing lo hi with
  | zero => simp [findLineLoop] at h
  | succ fuel ih =>
    unfold findLineLoop at h
    by_cases hlh : lo ≤ hi
    · rw [if_pos hlh] at h
      dsimp only at h
      rcases hcur : l.get? ((lo + hi) / 2).toNat with _ | li2
      · rw [hcur] at h
        cases h
      · simp only [hcur] at h
        by_cases h1 : lineNumOf db li2 < line
        · rw [if_pos h1] at h
          exact ih _ _ h
        · rw [if_neg h1] at h
          by_cases h2 : line < lineNumOf db li2
          · rw [if_pos h2] at h
            exact ih _ _ h
          · rw [if_neg h2] at h
            cases h
            exact ⟨List.get?_mem hcur, by omega⟩
    · rw [if_neg hlh] at h
      cases h

theorem findLineLoop_complete (db : DbgInfo) (l : List Nat) (line : Nat)
    (hsorted : ∀ j < l.length, ∀ i ≤ j,
      lineNumOf db (l.getD i 0) ≤ lineNumOf db (l.getD j 0))
    (k : Nat) (hk : k < l.length) (hmatch : lineNumOf db (l.getD k 0) = line)
    (fuel : Nat) (lo hi : Int) (hlo : 0 ≤ lo) (hhi : hi < (l.length : Int))
    (hfuel : hi - lo + 1 ≤ (fuel : Int))
    (hlok : lo ≤ (k : Int)) (hkhi : (k : Int) ≤ hi) :
    (findLineLoop db l line fuel lo hi).isSome := by
  induction fuel generalizing lo hi with
  | zero => omega
  | succ fuel ih =>
    unfold findLineLoop
    have hlh : lo ≤ hi := by omega
    rw [if_pos hlh]
    dsimp only
    have hcb : 0 ≤ (lo + hi) / 2 ∧ lo ≤ (lo + hi) / 2 ∧ (lo + hi) / 2 ≤ hi := by omega
    rcases hcur : l.get? ((lo + hi) / 2).toNat with _ | li2
    · rw [List.get?_eq_none] at hcur
      omega
    · have hcur2 : l[((lo + hi) / 2).toNat]? = some li2 := by
        rw [← List.get?_eq_getElem?]
        exact hcur
      have hgd : l.getD ((lo + hi) / 2).toNat 0 = li2 := by
        simp [List.getD, hcur2]
      simp only [hcur]
      by_cases h1 : lineNumOf db li2 < line
      · rw [if_pos h1]
        have hkgt : ((lo + hi) / 2).toNat < k := by
          by_contra hcon
          push_neg at hcon
          have hc1 : ((lo + hi) / 2).toNat < l.length := by omega
          have := hsorted ((lo + hi) / 2).toNat hc1 k hcon
          rw [hgd, hmatch] at this
          omega
        exact ih ((lo + hi) / 2 + 1) hi (by omega) hhi (by omega) (by omega) hkhi
      · rw [if_neg h1]
        by_cases h2 : line < lineNumOf db li2
        · rw [if_pos h2]
          have hklt : k < ((lo + hi) / 2).toNat := by
            by_contra hcon
            push_neg at hcon
            have := hsorted k hk ((lo + hi) / 2).toNat hcon
            rw [hgd, hmatch] at this
            omega
          exact ih lo ((lo + hi) / 2 - 1) hlo (by omega) (by omega) hlok (by omega)
        · rw [if_neg h2]
          simp


theorem fileAt_lt (db : DbgInfo) (fileId : Nat) (F : FileInfo)
    (h : fileAt db fileId = some F) : fileId < db.FileInfoById.length := by
  by_contra hcon
  push_neg at hcon
  rw [fileAt, List.getD, List.get?_eq_getElem?, List.getElem?_eq_none hcon] at h
  simp at h

theorem mem_getD_index (l : List Nat) (li : Nat) (hmem : li ∈ l) :
    ∃ k < l.length, l.getD k 0 = li := by
  obtain ⟨n, hn⟩ := List.mem_iff_get?.mp hmem
  have hlt : n < l.length := by
    by_contra hcon
    push_neg at hcon
    rw [List.get?_eq_getElem?, List.getElem?_eq_none hcon] at hn
    cases hn
  refine ⟨n, hlt, ?_⟩
  rw [List.get?_eq_getElem?] at hn
  simp [List.getD, hn]

/-- Claim C8, amended: an out-of-range file id gives `none`; on a file
whose line list is sorted by line number and free of dangling record
pointers the query succeeds exactly when some entry carries the requested
line number, and any record it returns is one of the file's records with
that line number - but not necessarily the first one. -/
theorem c8_amended_byline_any_match (db : DbgInfo) (fileId line : Nat)
    (hsorted : ∀ j < (fileLines db fileId).length, ∀ i ≤ j,
      lineNumOf db ((fileLines db fileId).getD i 0) ≤
        lineNumOf db ((fileLines db fileId).getD j 0))
    (hdangle : ∀ li ∈ fileLines db fileId, (lineAt db li).isSome) :
    (db.FileInfoById.length ≤ fileId → cc65_lineinfo_byline db fileId line = none) ∧
    ((cc65_lineinfo_byline db fileId line).isSome ↔
      ∃ k < (fileLines db fileId).length,
        lineNumOf db ((fileLines db fileId).getD k 0) = line) ∧
    (∀ L, cc65_lineinfo_byline db fileId line = some L →
      ∃ li ∈ fileLines db fileId, lineAt db li = some L ∧ L.Line = line) := by
  refine ⟨fun h => by unfold cc65_lineinfo_byline; rw [if_pos h], ?_, ?_⟩
  · rcases hF : fileAt db fileId with _ | F
    · have hfl : fileLines db fileId = [] := by
        unfold fileLines
        rw [hF]
      constructor
      · intro hS
        unfold cc65_lineinfo_byline at hS
        by_cases hge : db.FileInfoById.length ≤ fileId
        · rw [if_pos hge] at hS
          simp at hS
        · rw [if_neg hge] at hS
          simp only [hF] at hS
          simp at hS
      · rintro ⟨k, hk, _⟩
        rw [hfl] at hk
        simp at hk
    · have hlt : fileId < db.FileInfoById.length := fileAt_lt db fileId F hF
      have hfl : fileLines db fileId = F.LineInfoByLine := by
        unfold fileLines
        rw [hF]
      rw [hfl] at hsorted hdangle ⊢
      constructor
      · intro hS
        unfold cc65_lineinfo_byline at hS
        rw [if_neg (by omega)] at hS
        simp only [hF] at hS
        rcases hfind : findLineInfoByLine db F.LineInfoByLine line with _ | li
        · rw [hfind] at hS
          simp at hS
        · unfold findLineInfoByLine at hfind
          obtain ⟨hmem, hnum⟩ := findLineLoop_sound db F.LineInfoByLine line li _ _ _ hfind
          obtain ⟨k, hk, hgd⟩ := mem_getD_index F.LineInfoByLine li hmem
          exact ⟨k, hk, by rw [hgd, hnum]⟩
      · rintro ⟨k, hk, hnum⟩
        have hc := findLineLoop_complete db F.LineInfoByLine line hsorted k hk hnum
          F.LineInfoByLine.length 0 ((F.LineInfoByLine.length : Int) - 1)
          le_rfl (by omega) (by omega) (by omega) (by omega)
        rcases hfind : findLineLoop db F.LineInfoByLine line
            F.LineInfoByLine.length 0 ((F.LineInfoByLine.length : Int) - 1) with _ | li
        · rw [hfind] at hc
          simp at hc
        · obtain ⟨hmem, _⟩ := findLineLoop_sound db F.LineInfoByLine line li _ _ _ hfind
          have hlis := hdangle li hmem
          unfold cc65_lineinfo_byline
          rw [if_neg (by omega)]
          simp only [hF]
          have hfind2 : findLineInfoByLine db F.LineInfoByLine line = some li := hfind
          rw [hfind2]
          exact hlis
  · intro L hL
    rcases hF : fileAt db fileId with _ | F
    · unfold cc65_lineinfo_byline at hL
      by_cases hge : db.FileInfoById.length ≤ fileId
      · rw [if_pos hge] at hL
        cases hL
      · rw [if_neg hge] at hL
        simp only [hF] at hL
        cases hL
    · have hlt : fileId < db.FileInfoById.length := fileAt_lt db fileId F hF
      have hfl : fileLines db fileId = F.LineInfoByLine := by
        unfold fileLines
        rw [hF]
      rw [hfl]
      unfold cc65_lineinfo_byline at hL
      rw [if_neg (by omega)] at hL
      simp only [hF] at hL
      rcases hfind : findLineInfoByLine db F.LineInfoByLine line with _ | li
      · rw [hfind] at hL
        cases hL
      · simp only [hfind] at hL
        unfold findLineInfoByLine at hfind
        obtain ⟨hmem, hnum⟩ := findLineLoop_sound db F.LineInfoByLine line li _ _ _ hfind
        refine ⟨li, hmem, hL, ?_⟩
        unfold lineNumOf at hnum
        simp only [hL] at hnum
        exact hnum



/-- Claim C8, counterexample: on a file whose by-line list holds records
2, 4 and 0 (the order the unstable `CollQuickSort` leaves three equal-key
entries in), all with source line 7, the query returns record 4 (the
midpoint hit of the binary search), although the first record of the
sorted list with that line number is record 2 - `FindLineInfoByLine` does
not continue towards the first match. -/
theorem c8_counterexample :
    (cc65_read_dbginfo 2 0 dupLineInput).2 = [] ∧
    ((cc65_read_dbginfo 2 0 dupLineInput).1.map (fun db =>
      ((fileAt db 0).map (fun F => F.LineInfoByLine),
       (lineAt db 2).map (fun L => (L.Id, L.Line)),
       (cc65_lineinfo_byline db 0 7).map (fun L => L.Id)))) =
      some (some [2, 4, 0], some (2, 7), some 4) :=
  ⟨rfl, rfl⟩

/-- Claim C8, witness: the amended statement evaluated on the loaded
five-line fixture at file 0, line 7. -/
theorem c8_amended_witness :
    ((cc65_lineinfo_byline ((cc65_read_dbginfo 2 0 dupLineInput).1.getD emptyDbgInfo) 0 7).isSome ↔
      ∃ k < (fileLines ((cc65_read_dbginfo 2 0 dupLineInput).1.getD emptyDbgInfo) 0).length,
        lineNumOf ((cc65_read_dbginfo 2 0 dupLineInput).1.getD emptyDbgInfo)
          ((fileLines ((cc65_read_dbginfo 2 0 dupLineInput).1.getD emptyDbgInfo) 0).getD k 0) = 7) ∧
    (∀ L, cc65_lineinfo_byline ((cc65_read_dbginfo 2 0 dupLineInput).1.getD emptyDbgInfo) 0 7 = some L →
      ∃ li ∈ fileLines ((cc65_read_dbginfo 2 0 dupLineInput).1.getD emptyDbgInfo) 0,
        lineAt ((cc65_read_dbginfo 2 0 dupLineInput).1.getD emptyDbgInfo) li = some L ∧
        L.Line = 7) :=
  (c8_amended_byline_any_match ((cc65_read_dbginfo 2 0 dupLineInput).1.getD emptyDbgInfo) 0 7
    (by decide) (by decide)).2




theorem findSymValLoop_lower (l : List SymInfo) (value : Int)
    (hsorted : ∀ j < l.length, ∀ i ≤ j,
      (l.getD i symDefault).Value ≤ (l.getD j symDefault).Value)
    (fuel : Nat) :
    ∀ (lo hi : Int) (found : Bool),
    0 ≤ lo → hi < (l.length : Int) → hi - lo + 1 ≤ (fuel : Int) →
    (∀ j : Nat, j < l.length → (j : Int) < lo →
      (l.getD j symDefault).Value < value) →
    (∀ j : Nat, j < l.length → hi < (j : Int) →
      value ≤ (l.getD j symDefault).Value) →
    (0 ≤ (findSymValLoop l value fuel lo hi found).2 ∧
     (∀ j : Nat, j < l.length →
        (j : Int) < (findSymValLoop l value fuel lo hi found).2 →
        (l.getD j symDefault).Value < value) ∧
     (∀ j : Nat, j < l.length →
        (findSymValLoop l value fuel lo hi found).2 ≤ (j : Int) →
        value ≤ (l.getD j symDefault).Value)) := by
  induction fuel with
  | zero =>
    intro lo hi found hlo hhi hfuel hlow hhigh
    simp only [findSymValLoop]
    refine ⟨hlo, hlow, ?_⟩
    intro j hj hge
    exact hhigh j hj (by omega)
  | succ fuel ih =>
    intro lo hi found hlo hhi hfuel hlow hhigh
    unfold findSymValLoop
    by_cases hlh : lo ≤ hi
    · rw [if_pos hlh]
      dsimp only
      rcases hcur : l.get? ((lo + hi) / 2).toNat with _ | s
      · rw [List.get?_eq_none] at hcur
        omega
      · have hcur2 : l[((lo + hi) / 2).toNat]? = some s := by
          rw [← List.get?_eq_getElem?]
          exact hcur
        have hgd : l.getD ((lo + hi) / 2).toNat symDefault = s := by
          simp [List.getD, hcur2]
        have hclen : ((lo + hi) / 2).toNat < l.length := by omega
        simp only [hcur]
        by_cases h1 : s.Value < value
        · rw [if_pos h1]
          refine ih ((lo + hi) / 2 + 1) hi found (by omega) hhi (by omega) ?_ hhigh
          intro j hj hjlt
          by_cases hjlo : (j : Int) < lo
          · exact hlow j hj hjlo
          · have hle : j ≤ ((lo + hi) / 2).toNat := by omega
            have := hsorted ((lo + hi) / 2).toNat hclen j hle
            rw [hgd] at this
            omega
        · rw [if_neg h1]
          refine ih lo ((lo + hi) / 2 - 1) (found || value == s.Value)
            hlo (by omega) (by omega) hlow ?_
          intro j hj hjgt
          have hle : ((lo + hi) / 2).toNat ≤ j := by omega
          have := hsorted j hj ((lo + hi) / 2).toNat hle
          rw [hgd] at this
          omega
    · rw [if_neg hlh]
      refine ⟨hlo, hlow, ?_⟩
      intro j hj hge
      exact hhigh j hj (by omega)

theorem symScan_eq (endA : Nat) (acc : List SymInfo) (rest : List SymInfo)
    (hsorted : rest.Pairwise (fun a b => a.Value ≤ b.Value)) :
    symScan endA acc rest = acc ++ rest.filter
      (fun s => s.Ty == SymType.label && decide (s.Value ≤ (endA : Int))) := by
  induction rest generalizing acc with
  | nil => simp [symScan]
  | cons s rest ih =>
    rw [List.pairwise_cons] at hsorted
    unfold symScan
    by_cases hv : (endA : Int) < s.Value
    · rw [if_pos hv]
      have hnil : rest.filter
          (fun s => s.Ty == SymType.label && decide (s.Value ≤ (endA : Int))) = [] := by
        rw [List.filter_eq_nil_iff]
        intro b hb
        have := hsorted.1 b hb
        simp only [Bool.and_eq_true, decide_eq_true_eq]
        rintro ⟨_, hble⟩
        omega
      rw [List.filter_cons]
      have hps : (s.Ty == SymType.label && decide (s.Value ≤ (endA : Int))) = false := by
        simp only [Bool.and_eq_false_iff]
        right
        simp only [decide_eq_false_iff_not]
        omega
      rw [hps]
      simp [hnil]
    · rw [if_neg hv]
      by_cases hty : s.Ty ≠ SymType.label
      · rw [if_pos hty]
        rw [ih acc hsorted.2, List.filter_cons]
        have hps : (s.Ty == SymType.label && decide (s.Value ≤ (endA : Int))) = false := by
          simp only [Bool.and_eq_false_iff]
          left
          simpa using hty
        rw [hps]
        simp
      · rw [if_neg hty]
        rw [ih (acc ++ [s]) hsorted.2, List.filter_cons]
        push_neg at hty
        have hps : (s.Ty == SymType.label && decide (s.Value ≤ (endA : Int))) = true := by
          simp [hty]
          omega
        rw [hps]
        simp

theorem pairwise_value_of_sorted (l : List SymInfo)
    (hsorted : ∀ j < l.length, ∀ i ≤ j,
      (l.getD i symDefault).Value ≤ (l.getD j symDefault).Value) :
    l.Pairwise (fun a b => a.Value ≤ b.Value) := by
  rw [List.pairwise_iff_get]
  intro i j hij
  have h1 : l.getD (i : Nat) symDefault = l.get i := by
    simp [List.getD, List.get?_eq_getElem?, List.getElem?_eq_getElem i.isLt]
  have h2 : l.getD (j : Nat) symDefault = l.get j := by
    simp [List.getD, List.get?_eq_getElem?, List.getElem?_eq_getElem j.isLt]
  have := hsorted (j : Nat) j.isLt (i : Nat) (le_of_lt hij)
  rw [h1, h2] at this
  exact this

theorem mem_take_index (l : List SymInfo) (n : Nat) (a : SymInfo)
    (h : a ∈ l.take n) : ∃ k < n, k < l.length ∧ l.getD k symDefault = a := by
  obtain ⟨k, hk⟩ := List.mem_iff_get?.mp h
  have hkt : k < (l.take n).length := by
    by_contra hcon
    push_neg at hcon
    rw [List.get?_eq_getElem?, List.getElem?_eq_none hcon] at hk
    cases hk
  rw [List.length_take] at hkt
  have hkn : k < n := by omega
  have hkl : k < l.length := by omega
  rw [List.get?_take hkn, List.get?_eq_getElem?] at hk
  exact ⟨k, hkn, hkl, by simp [List.getD, hk]⟩

theorem mem_drop_index (l : List SymInfo) (n : Nat) (a : SymInfo)
    (h : a ∈ l.drop n) : ∃ k, n ≤ k ∧ k < l.length ∧ l.getD k symDefault = a := by
  obtain ⟨k, hk⟩ := List.mem_iff_get?.mp h
  rw [List.get?_drop] at hk
  have hkl : n + k < l.length := by
    by_contra hcon
    push_neg at hcon
    rw [List.get?_eq_getElem?, List.getElem?_eq_none hcon] at hk
    cases hk
  rw [List.get?_eq_getElem?] at hk
  exact ⟨n + k, by omega, hkl, by simp [List.getD, hk]⟩

/-- Claim C9: on a value-sorted symbol collection, `cc65_symbol_inrange`
returns exactly the label-type symbols whose value lies in
`[start, end]`, and `none` when no label does - equates inside the range
are excluded.  The lower-bound binary search plus forward scan equals the
global filter. -/
theorem c9_symbol_inrange_exact (l : List SymInfo) (startA endA : Nat)
    (_hse : startA ≤ endA)
    (hsorted : ∀ j < l.length, ∀ i ≤ j,
      (l.getD i symDefault).Value ≤ (l.getD j symDefault).Value) :
    cc65_symbol_inrange l startA endA =
      (if (l.filter (fun s => s.Ty == SymType.label &&
            (decide ((startA : Int) ≤ s.Value) && decide (s.Value ≤ (endA : Int))))).length = 0
       then none
       else some (l.filter (fun s => s.Ty == SymType.label &&
            (decide ((startA : Int) ≤ s.Value) && decide (s.Value ≤ (endA : Int)))))) := by
  have hinv := findSymValLoop_lower l (startA : Int) hsorted l.length
    0 ((l.length : Int) - 1) false (le_refl 0) (by omega) (by omega)
    (fun j _ hj => by omega)
    (fun j hj hgt => by omega)
  obtain ⟨hpos, hlow, hhigh⟩ := hinv
  have hres : symScan endA []
      (l.drop (findSymInfoByValue l (startA : Int)).2.toNat) =
      l.filter (fun s => s.Ty == SymType.label &&
        (decide ((startA : Int) ≤ s.Value) && decide (s.Value ≤ (endA : Int)))) := by
    rw [symScan_eq endA []
      (l.drop (findSymInfoByValue l (startA : Int)).2.toNat)
      (List.Pairwise.sublist (List.drop_sublist _ _)
        (pairwise_value_of_sorted l hsorted))]
    rw [List.nil_append]
    conv_rhs => rw [← List.take_append_drop
      (findSymInfoByValue l (startA : Int)).2.toNat l, List.filter_append]
    have htake : (l.take (findSymInfoByValue l (startA : Int)).2.toNat).filter
        (fun s => s.Ty == SymType.label &&
          (decide ((startA : Int) ≤ s.Value) && decide (s.Value ≤ (endA : Int)))) = [] := by
      rw [List.filter_eq_nil_iff]
      intro a ha
      obtain ⟨k, hkn, hkl, hgd⟩ := mem_take_index l _ a ha
      have hlt := hlow k hkl (by
        unfold findSymInfoByValue at hkn
        omega)
      rw [hgd] at hlt
      simp only [Bool.and_eq_true, decide_eq_true_eq]
      rintro ⟨_, hge, _⟩
      omega
    have hdrop : (l.drop (findSymInfoByValue l (startA : Int)).2.toNat).filter
        (fun s => s.Ty == SymType.label &&
          (decide ((startA : Int) ≤ s.Value) && decide (s.Value ≤ (endA : Int)))) =
        (l.drop (findSymInfoByValue l (startA : Int)).2.toNat).filter
          (fun s => s.Ty == SymType.label && decide (s.Value ≤ (endA : Int))) := by
      apply List.filter_congr
      intro a ha
      obtain ⟨k, hkn, hkl, hgd⟩ := mem_drop_index l _ a ha
      have hge := hhigh k hkl (by
        unfold findSymInfoByValue at hkn
        omega)
      rw [hgd] at hge
      have : decide ((startA : Int) ≤ a.Value) = true := by
        simp only [decide_eq_true_eq]
        omega
      rw [this]
      simp
    rw [htake, hdrop, List.nil_append]
  unfold cc65_symbol_inrange
  dsimp only
  rw [hres]



/-- Claim C9, witness: on the fixture collection the range query over
`[5, 7]` equals the label filter (which keeps records 0 and 2 and drops
the equate at value 6). -/
theorem c9_witness :
    cc65_symbol_inrange rangeSyms 5 7 =
      (if (rangeSyms.filter (fun s => s.Ty == SymType.label &&
            (decide (((5 : Nat) : Int) ≤ s.Value) && decide (s.Value ≤ ((7 : Nat) : Int))))).length = 0
       then none
       else some (rangeSyms.filter (fun s => s.Ty == SymType.label &&
            (decide (((5 : Nat) : Int) ≤ s.Value) && decide (s.Value ≤ ((7 : Nat) : Int)))))) :=
  c9_symbol_inrange_exact rangeSyms 5 7 (by decide) (by decide)









-- Exactness of the 32-bit wrap-around arithmetic under no-overflow bounds.
theorem w32_val : W32 = 4294967296 := by norm_num [W32]

theorem w32add_exact (a b : Nat) (h : a + b < W32) : w32add a b = a + b := by
  rw [w32add, Nat.mod_eq_of_lt h]

theorem w32sub_exact (a b : Nat) (hba : b ≤ a) (ha : a < W32) :
    w32sub a b = a - b := by
  rw [w32sub]
  rw [w32_val] at ha ⊢
  omega

theorem w32_chunk (s e : Nat) (hdeg : s ≤ e + 1) (_he : e < W32)
    (hsz : e + 1 - s < W32) :
    w32add (w32sub e s) 1 = e + 1 - s := by
  rw [w32add, w32sub]
  rw [w32_val] at hsz ⊢
  omega


theorem step1Aux_eq (rest : List SpanInfo) :
    ∀ (cnt endA : Nat),
    (∀ s ∈ rest, s.Start ≤ s.End + 1 ∧ s.End < W32) →
    cnt + (walkCL endA rest).length < W32 →
    step1Aux cnt endA rest = cnt + (walkCL endA rest).length := by
  induction rest with
  | nil =>
    intro cnt endA _ _
    simp [step1Aux, walkCL]
  | cons s rest ih =>
    intro cnt endA hdeg htot
    have hs := hdeg s (List.mem_cons_self s rest)
    have hrest : ∀ t ∈ rest, t.Start ≤ t.End + 1 ∧ t.End < W32 :=
      fun t ht => hdeg t (List.mem_cons_of_mem s ht)
    have hstep : step1Aux cnt endA (s :: rest) =
        (if s.Start > endA then
          step1Aux (w32add cnt (w32add (w32sub s.End s.Start) 1)) s.End rest
        else if s.End > endA then
          step1Aux (w32add cnt (w32sub s.End endA)) s.End rest
        else step1Aux cnt endA rest) := rfl
    have hwalk : walkCL endA (s :: rest) =
        (if s.Start > endA then
          List.range' s.Start (s.End + 1 - s.Start) ++ walkCL s.End rest
        else if s.End > endA then
          List.range' (endA + 1) (s.End - endA) ++ walkCL s.End rest
        else walkCL endA rest) := rfl
    rw [hstep, hwalk]
    rw [hwalk] at htot
    by_cases h1 : s.Start > endA
    · rw [if_pos h1]
      rw [if_pos h1]
      rw [if_pos h1] at htot
      rw [List.length_append, List.length_range'] at htot ⊢
      have hsz : s.End + 1 - s.Start < W32 := by omega
      rw [w32_chunk s.Start s.End hs.1 hs.2 hsz]
      rw [w32add_exact cnt (s.End + 1 - s.Start) (by omega)]
      rw [ih (cnt + (s.End + 1 - s.Start)) s.End hrest (by omega)]
      omega
    · rw [if_neg h1]
      rw [if_neg h1]
      rw [if_neg h1] at htot
      by_cases h2 : s.End > endA
      · rw [if_pos h2]
        rw [if_pos h2]
        rw [if_pos h2] at htot
        rw [List.length_append, List.length_range'] at htot ⊢
        rw [w32sub_exact s.End endA (by omega) hs.2]
        rw [w32add_exact cnt (s.End - endA) (by omega)]
        rw [ih (cnt + (s.End - endA)) s.End hrest (by omega)]
        omega
      · rw [if_neg h2]
        rw [if_neg h2]
        rw [if_neg h2] at htot
        exact ih cnt endA hrest htot

theorem step1Count_eq (spans : List SpanInfo)
    (hdeg : ∀ s ∈ spans, s.Start ≤ s.End + 1 ∧ s.End < W32)
    (htot : (coveredList spans).length < W32) :
    step1Count spans = (coveredList spans).length := by
  match spans with
  | [] => simp [step1Count, coveredList]
  | s0 :: rest =>
    have hs0 := hdeg s0 (List.mem_cons_self s0 rest)
    have hrest : ∀ t ∈ rest, t.Start ≤ t.End + 1 ∧ t.End < W32 :=
      fun t ht => hdeg t (List.mem_cons_of_mem s0 ht)
    have htot2 : (List.range' s0.Start (s0.End + 1 - s0.Start) ++
        walkCL s0.End rest).length < W32 := htot
    show step1Aux (w32add (w32sub s0.End s0.Start) 1) s0.End rest =
      (List.range' s0.Start (s0.End + 1 - s0.Start) ++ walkCL s0.End rest).length
    rw [List.length_append, List.length_range'] at htot2 ⊢
    have hsz : s0.End + 1 - s0.Start < W32 := by omega
    rw [w32_chunk s0.Start s0.End hs0.1 hs0.2 hsz]
    rw [step1Aux_eq rest (s0.End + 1 - s0.Start) s0.End hrest (by omega)]

theorem walkCL_gt (rest : List SpanInfo) :
    ∀ endA, (∀ s ∈ rest, s.Start ≤ s.End + 1) →
    ∀ x ∈ walkCL endA rest, endA < x := by
  induction rest with
  | nil =>
    intro endA _ x hx
    simp [walkCL] at hx
  | cons s rest ih =>
    intro endA hdeg x hx
    have hs := hdeg s (List.mem_cons_self s rest)
    have hrest : ∀ t ∈ rest, t.Start ≤ t.End + 1 :=
      fun t ht => hdeg t (List.mem_cons_of_mem s ht)
    have hwalk : walkCL endA (s :: rest) =
        (if s.Start > endA then
          List.range' s.Start (s.End + 1 - s.Start) ++ walkCL s.End rest
        else if s.End > endA then
          List.range' (endA + 1) (s.End - endA) ++ walkCL s.End rest
        else walkCL endA rest) := rfl
    rw [hwalk] at hx
    by_cases h1 : s.Start > endA
    · rw [if_pos h1] at hx
      rcases List.mem_append.mp hx with hx1 | hx2
      · rw [List.mem_range'_1] at hx1
        omega
      · have := ih s.End hrest x hx2
        omega
    · rw [if_neg h1] at hx
      by_cases h2 : s.End > endA
      · rw [if_pos h2] at hx
        rcases List.mem_append.mp hx with hx1 | hx2
        · rw [List.mem_range'_1] at hx1
          omega
        · have := ih s.End hrest x hx2
          omega
      · rw [if_neg h2] at hx
        exact ih endA hrest x hx

theorem walkCL_pairwise (rest : List SpanInfo) :
    ∀ endA, (∀ s ∈ rest, s.Start ≤ s.End + 1) →
    (walkCL endA rest).Pairwise (· < ·) := by
  induction rest with
  | nil =>
    intro endA _
    simp [walkCL]
  | cons s rest ih =>
    intro endA hdeg
    have hs := hdeg s (List.mem_cons_self s rest)
    have hrest : ∀ t ∈ rest, t.Start ≤ t.End + 1 :=
      fun t ht => hdeg t (List.mem_cons_of_mem s ht)
    have hwalk : walkCL endA (s :: rest) =
        (if s.Start > endA then
          List.range' s.Start (s.End + 1 - s.Start) ++ walkCL s.End rest
        else if s.End > endA then
          List.range' (endA + 1) (s.End - endA) ++ walkCL s.End rest
        else walkCL endA rest) := rfl
    rw [hwalk]
    by_cases h1 : s.Start > endA
    · rw [if_pos h1]
      rw [List.pairwise_append]
      refine ⟨List.pairwise_lt_range' _ _ 1 ?_, ih s.End hrest, ?_⟩
      · omega
      · intro x hx y hy
        rw [List.mem_range'_1] at hx
        have := walkCL_gt rest s.End hrest y hy
        omega
    · rw [if_neg h1]
      by_cases h2 : s.End > endA
      · rw [if_pos h2]
        rw [List.pairwise_append]
        refine ⟨List.pairwise_lt_range' _ _ 1 ?_, ih s.End hrest, ?_⟩
        · omega
        · intro x hx y hy
          rw [List.mem_range'_1] at hx
          have := walkCL_gt rest s.End hrest y hy
          omega
      · rw [if_neg h2]
        exact ih endA hrest

theorem walkCL_mem (rest : List SpanInfo) :
    ∀ endA, rest.Pairwise (fun a b => a.Start ≤ b.Start) →
    (∀ s ∈ rest, s.Start ≤ s.End + 1) →
    ∀ x, x ∈ walkCL endA rest ↔
      ((∃ s ∈ rest, s.Start ≤ x ∧ x ≤ s.End) ∧ endA < x) := by
  induction rest with
  | nil =>
    intro endA _ _ x
    simp [walkCL]
  | cons s rest ih =>
    intro endA hsorted hdeg x
    rw [List.pairwise_cons] at hsorted
    have hs := hdeg s (List.mem_cons_self s rest)
    have hrest : ∀ t ∈ rest, t.Start ≤ t.End + 1 :=
      fun t ht => hdeg t (List.mem_cons_of_mem s ht)
    have hwalk : walkCL endA (s :: rest) =
        (if s.Start > endA then
          List.range' s.Start (s.End + 1 - s.Start) ++ walkCL s.End rest
        else if s.End > endA then
          List.range' (endA + 1) (s.End - endA) ++ walkCL s.End rest
        else walkCL endA rest) := rfl
    rw [hwalk]
    by_cases h1 : s.Start > endA
    · rw [if_pos h1, List.mem_append, List.mem_range'_1,
        ih s.End hsorted.2 hrest x]
      constructor
      · rintro (⟨hx1, hx2⟩ | ⟨⟨t, ht, h3, h4⟩, h5⟩)
        · exact ⟨⟨s, List.mem_cons_self s rest, by omega, by omega⟩, by omega⟩
        · exact ⟨⟨t, List.mem_cons_of_mem s ht, h3, h4⟩, by omega⟩
      · rintro ⟨⟨t, ht, h3, h4⟩, h5⟩
        rcases List.mem_cons.mp ht with rfl | ht2
        · left
          omega
        · by_cases hxe : x ≤ s.End
          · left
            have := hsorted.1 t ht2
            omega
          · right
            exact ⟨⟨t, ht2, h3, h4⟩, by omega⟩
    · rw [if_neg h1]
      by_cases h2 : s.End > endA
      · rw [if_pos h2, List.mem_append, List.mem_range'_1,
          ih s.End hsorted.2 hrest x]
        constructor
        · rintro (⟨hx1, hx2⟩ | ⟨⟨t, ht, h3, h4⟩, h5⟩)
          · exact ⟨⟨s, List.mem_cons_self s rest, by omega, by omega⟩, by omega⟩
          · exact ⟨⟨t, List.mem_cons_of_mem s ht, h3, h4⟩, by omega⟩
        · rintro ⟨⟨t, ht, h3, h4⟩, h5⟩
          rcases List.mem_cons.mp ht with rfl | ht2
          · left
            omega
          · by_cases hxe : x ≤ s.End
            · left
              omega
            · right
              exact ⟨⟨t, ht2, h3, h4⟩, by omega⟩
      · rw [if_neg h2, ih endA hsorted.2 hrest x]
        constructor
        · rintro ⟨⟨t, ht, h3, h4⟩, h5⟩
          exact ⟨⟨t, List.mem_cons_of_mem s ht, h3, h4⟩, h5⟩
        · rintro ⟨⟨t, ht, h3, h4⟩, h5⟩
          rcases List.mem_cons.mp ht with rfl | ht2
          · omega
          · exact ⟨⟨t, ht2, h3, h4⟩, h5⟩

theorem coveredList_mem (spans : List SpanInfo)
    (hsorted : spans.Pairwise (fun a b => a.Start ≤ b.Start))
    (hdeg : ∀ s ∈ spans, s.Start ≤ s.End + 1) :
    ∀ x, x ∈ coveredList spans ↔ ∃ s ∈ spans, s.Start ≤ x ∧ x ≤ s.End := by
  match spans with
  | [] => intro x; simp [coveredList]
  | s0 :: rest =>
    intro x
    rw [List.pairwise_cons] at hsorted
    have hs0 := hdeg s0 (List.mem_cons_self s0 rest)
    have hrest : ∀ t ∈ rest, t.Start ≤ t.End + 1 :=
      fun t ht => hdeg t (List.mem_cons_of_mem s0 ht)
    show x ∈ List.range' s0.Start (s0.End + 1 - s0.Start) ++ walkCL s0.End rest ↔ _
    rw [List.mem_append, List.mem_range'_1, walkCL_mem rest s0.End hsorted.2 hrest x]
    constructor
    · rintro (⟨hx1, hx2⟩ | ⟨⟨t, ht, h3, h4⟩, h5⟩)
      · exact ⟨s0, List.mem_cons_self s0 rest, by omega, by omega⟩
      · exact ⟨t, List.mem_cons_of_mem s0 ht, h3, h4⟩
    · rintro ⟨t, ht, h3, h4⟩
      rcases List.mem_cons.mp ht with rfl | ht2
      · left
        omega
      · by_cases hxe : x ≤ s0.End
        · left
          have := hsorted.1 t ht2
          omega
        · right
          exact ⟨⟨t, ht2, h3, h4⟩, by omega⟩

theorem coveredList_pairwise (spans : List SpanInfo)
    (hdeg : ∀ s ∈ spans, s.Start ≤ s.End + 1) :
    (coveredList spans).Pairwise (· < ·) := by
  match spans with
  | [] => simp [coveredList]
  | s0 :: rest =>
    have hs0 := hdeg s0 (List.mem_cons_self s0 rest)
    have hrest : ∀ t ∈ rest, t.Start ≤ t.End + 1 :=
      fun t ht => hdeg t (List.mem_cons_of_mem s0 ht)
    show (List.range' s0.Start (s0.End + 1 - s0.Start) ++ walkCL s0.End rest).Pairwise (· < ·)
    rw [List.pairwise_append]
    refine ⟨List.pairwise_lt_range' _ _ 1 ?_, walkCL_pairwise rest s0.End hrest, ?_⟩
    · omega
    · intro x hx y hy
      rw [List.mem_range'_1] at hx
      have := walkCL_gt rest s0.End hrest y hy
      omega

theorem coveredSet_mem (spans : List SpanInfo) :
    ∀ x, x ∈ coveredSet spans ↔ ∃ s ∈ spans, s.Start ≤ x ∧ x ≤ s.End := by
  induction spans with
  | nil => intro x; simp [coveredSet]
  | cons s rest ih =>
    intro x
    show x ∈ Finset.Icc s.Start s.End ∪ coveredSet rest ↔ _
    rw [Finset.mem_union, Finset.mem_Icc, ih x]
    constructor
    · rintro (⟨h1, h2⟩ | ⟨t, ht, h3, h4⟩)
      · exact ⟨s, List.mem_cons_self s rest, h1, h2⟩
      · exact ⟨t, List.mem_cons_of_mem s ht, h3, h4⟩
    · rintro ⟨t, ht, h3, h4⟩
      rcases List.mem_cons.mp ht with rfl | ht2
      · exact Or.inl ⟨h3, h4⟩
      · exact Or.inr ⟨t, ht2, h3, h4⟩

/-- Claim C3: on a non-empty span collection sorted ascending by start
address (with in-range coordinates and no counter overflow), the entry
count computed by step 1 of `CreateSpanInfoList` equals the number of
distinct addresses in the union of the spans' closed `[Start, End]`
intervals. -/
theorem c3_step1_count_is_covered_card (spans : List SpanInfo)
    (_hne : spans ≠ [])
    (hsorted : spans.Pairwise (fun a b => a.Start ≤ b.Start))
    (hdeg : ∀ s ∈ spans, s.Start ≤ s.End + 1 ∧ s.End < W32)
    (htot : (coveredList spans).length < W32) :
    step1Count spans = (coveredSet spans).card := by
  rw [step1Count_eq spans hdeg htot]
  have hdeg1 : ∀ s ∈ spans, s.Start ≤ s.End + 1 := fun s hs => (hdeg s hs).1
  have hnd : (coveredList spans).Nodup :=
    (coveredList_pairwise spans hdeg1).imp (fun h => Nat.ne_of_lt h)
  have hset : coveredSet spans = (coveredList spans).toFinset := by
    apply Finset.ext
    intro x
    rw [List.mem_toFinset, coveredList_mem spans hsorted hdeg1 x, coveredSet_mem spans x]
  rw [hset, List.toFinset_card_of_nodup hnd]

theorem range'_getD (s n i : Nat) (h : i < n) :
    (List.range' s n).getD i 0 = s + i := by
  have hlen : i < (List.range' s n).length := by
    rw [List.length_range']
    exact h
  rw [List.getD_eq_getElem?_getD, List.getElem?_eq_getElem hlen]
  simp [List.getElem_range']

theorem fillRange_length (f : Nat → SpanInfo → SpanInfoListEntry → SpanInfoListEntry)
    (s : SpanInfo) :
    ∀ (k j a : Nat) (arr : List SpanInfoListEntry),
    (fillRange f s j a k arr).length = arr.length := by
  intro k
  induction k with
  | zero => intro j a arr; rfl
  | succ k ih =>
    intro j a arr
    show (fillRange f s (j + 1) (a + 1) k (List.modify (f a s) j arr)).length = _
    rw [ih (j + 1) (a + 1) (List.modify (f a s) j arr), List.length_modify]

theorem fillRange_get (f : Nat → SpanInfo → SpanInfoListEntry → SpanInfoListEntry)
    (s : SpanInfo) :
    ∀ (k j a : Nat) (arr : List SpanInfoListEntry) (p : Nat),
    (fillRange f s j a k arr).get? p =
      (if j ≤ p ∧ p < j + k then (arr.get? p).map (f (a + (p - j)) s)
       else arr.get? p) := by
  intro k
  induction k with
  | zero =>
    intro j a arr p
    rw [if_neg (by omega)]
    rfl
  | succ k ih =>
    intro j a arr p
    show (fillRange f s (j + 1) (a + 1) k (List.modify (f a s) j arr)).get? p = _
    rw [ih (j + 1) (a + 1) (List.modify (f a s) j arr) p]
    have hmod : (List.modify (f a s) j arr).get? p =
        (if j = p then (arr.get? p).map (f a s) else arr.get? p) := by
      rw [List.get?_eq_getElem?, List.get?_eq_getElem?, List.getElem?_modify]
      by_cases hjp : j = p
      · rw [if_pos hjp]
        rcases arr[p]? with _ | e <;> simp [hjp]
      · rw [if_neg hjp]
        rcases arr[p]? with _ | e <;> simp [hjp]
    by_cases h1 : j + 1 ≤ p ∧ p < j + 1 + k
    · rw [if_pos h1, if_pos (by omega), hmod, if_neg (by omega)]
      have harith : a + 1 + (p - (j + 1)) = a + (p - j) := by omega
      rw [harith]
    · rw [if_neg h1, hmod]
      by_cases h2 : j = p
      · rw [if_pos h2, if_pos (by omega)]
        subst h2
        have harith : a + (j - j) = a := by omega
        rw [harith]
      · rw [if_neg h2, if_neg (by omega)]








theorem walkCL_le (s : SpanInfo) (rest : List SpanInfo) (endA : Nat)
    (h : ¬s.Start > endA) :
    walkCL endA (s :: rest) =
      List.range' (endA + 1) (max endA s.End - endA) ++
        walkCL (max endA s.End) rest := by
  have hwalk : walkCL endA (s :: rest) =
      (if s.Start > endA then
        List.range' s.Start (s.End + 1 - s.Start) ++ walkCL s.End rest
      else if s.End > endA then
        List.range' (endA + 1) (s.End - endA) ++ walkCL s.End rest
      else walkCL endA rest) := rfl
  rw [hwalk, if_neg h]
  by_cases h2 : s.End > endA
  · rw [if_pos h2]
    have hmax : max endA s.End = s.End := by omega
    rw [hmax]
  · rw [if_neg h2]
    have hmax : max endA s.End = endA := by omega
    have hz : max endA s.End - endA = 0 := by omega
    rw [hz, hmax]
    simp

theorem tailAddrs_getD_small (lS endA : Nat) (rest : List SpanInfo) (q : Nat)
    (hq : q < endA + 1 - lS) :
    (tailAddrs lS endA rest).getD q 0 = lS + q := by
  rw [tailAddrs, List.getD_append _ _ _ q (by rw [List.length_range']; omega),
    range'_getD _ _ _ hq]

theorem tailAddrs_getD_shift (lS endA : Nat) (s : SpanInfo) (rest : List SpanInfo)
    (hb : s.Start > endA) (q : Nat) (hq : endA + 1 - lS ≤ q) :
    (tailAddrs lS endA (s :: rest)).getD q 0 =
      (tailAddrs s.Start s.End rest).getD (q - (endA + 1 - lS)) 0 := by
  have hwalkA : walkCL endA (s :: rest) =
      List.range' s.Start (s.End + 1 - s.Start) ++ walkCL s.End rest := by
    have hw : walkCL endA (s :: rest) =
        (if s.Start > endA then
          List.range' s.Start (s.End + 1 - s.Start) ++ walkCL s.End rest
        else if s.End > endA then
          List.range' (endA + 1) (s.End - endA) ++ walkCL s.End rest
        else walkCL endA rest) := rfl
    rw [hw, if_pos hb]
  rw [tailAddrs, List.getD_append_right _ _ _ q (by rw [List.length_range']; omega),
    List.length_range', hwalkA, tailAddrs]

theorem tailAddrs_getD_shift2 (lS endA : Nat) (s : SpanInfo) (rest : List SpanInfo)
    (hb : ¬s.Start > endA) (hsS : lS ≤ s.Start) (hLSe : lS ≤ endA + 1) (q : Nat)
    (hq : s.Start - lS ≤ q) :
    (tailAddrs lS endA (s :: rest)).getD q 0 =
      (tailAddrs s.Start (max endA s.End) rest).getD (q - (s.Start - lS)) 0 := by
  rw [tailAddrs, walkCL_le s rest endA hb, tailAddrs]
  rw [← List.append_assoc]
  have hjoin : List.range' lS (endA + 1 - lS) ++
      List.range' (endA + 1) (max endA s.End - endA) =
      List.range' lS (max endA s.End + 1 - lS) := by
    have h1 := List.range'_append lS (endA + 1 - lS) (max endA s.End - endA) 1
    simp only [Nat.one_mul] at h1
    have h2 : lS + (endA + 1 - lS) = endA + 1 := by omega
    rw [h2] at h1
    have h3 : max endA s.End - endA + (endA + 1 - lS) = max endA s.End + 1 - lS := by
      omega
    rw [h3] at h1
    exact h1
  rw [hjoin]
  by_cases hq2 : q < max endA s.End + 1 - lS
  · rw [List.getD_append _ _ _ q (by rw [List.length_range']; omega),
      range'_getD _ _ _ hq2]
    rw [List.getD_append _ _ _ _ (by rw [List.length_range']; omega),
      range'_getD _ _ _ (by omega)]
    omega
  · rw [List.getD_append_right _ _ _ q (by rw [List.length_range']; omega),
      List.length_range']
    rw [List.getD_append_right _ _ _ _ (by rw [List.length_range']; omega),
      List.length_range']
    have hidx : q - (max endA s.End + 1 - lS) =
        q - (s.Start - lS) - (max endA s.End + 1 - s.Start) := by
      have hsa : s.Start ≤ endA := by omega
      omega
    rw [hidx]

theorem tailAddrs_getD_big (lS endA : Nat) (rest : List SpanInfo)
    (hdeg : ∀ t ∈ rest, t.Start ≤ t.End + 1) (q : Nat)
    (hq1 : endA + 1 - lS ≤ q) (hq2 : q < (tailAddrs lS endA rest).length) :
    endA < (tailAddrs lS endA rest).getD q 0 := by
  rw [tailAddrs, List.length_append, List.length_range'] at hq2
  rw [tailAddrs, List.getD_append_right _ _ _ q (by rw [List.length_range']; omega),
    List.length_range']
  have hmem : (walkCL endA rest).getD (q - (endA + 1 - lS)) 0 ∈ walkCL endA rest := by
    have hlt : q - (endA + 1 - lS) < (walkCL endA rest).length := by omega
    rw [List.getD_eq_getElem?_getD, List.getElem?_eq_getElem hlt]
    exact List.getElem_mem _
  exact walkCL_gt rest endA hdeg _ hmem

theorem fillPassAux_length (f : Nat → SpanInfo → SpanInfoListEntry → SpanInfoListEntry) :
    ∀ (rest : List SpanInfo) (w : WalkSt) (arr : List SpanInfoListEntry),
    (fillPassAux f w rest arr).length = arr.length := by
  intro rest
  induction rest with
  | nil => intro w arr; rfl
  | cons s rest ih =>
    intro w arr
    show (fillPassAux f (stepWalk w s) rest
      (fillRange f s (stepWalk w s).StartIndex s.Start (s.End + 1 - s.Start) arr)).length = _
    rw [ih, fillRange_length]

theorem fillPassAux_get (f : Nat → SpanInfo → SpanInfoListEntry → SpanInfoListEntry) :
    ∀ (rest : List SpanInfo) (lS endA si : Nat) (arr : List SpanInfoListEntry),
    rest.Pairwise (fun a b => a.Start ≤ b.Start) →
    (∀ t ∈ rest, lS ≤ t.Start) →
    (∀ t ∈ rest, t.Start ≤ t.End + 1 ∧ t.End < W32) →
    lS ≤ endA + 1 →
    endA < W32 →
    arr.length = si + (tailAddrs lS endA rest).length →
    arr.length < W32 →
    ∀ p : Nat,
      (fillPassAux f ⟨si, lS, endA⟩ rest arr).get? p =
        (if si ≤ p then
          (arr.get? p).map (fun e =>
            (rest.filter (covers ((tailAddrs lS endA rest).getD (p - si) 0))).foldl
              (fun e t => f ((tailAddrs lS endA rest).getD (p - si) 0) t e) e)
        else arr.get? p) := by
  intro rest
  induction rest with
  | nil =>
    intro lS endA si arr _ _ _ _ _ _ _ p
    show arr.get? p = _
    by_cases hp : si ≤ p
    · rw [if_pos hp]
      rcases arr.get? p with _ | e <;> simp
    · rw [if_neg hp]
  | cons s rest ih =>
    intro lS endA si arr hsorted hlS hdeg hLSe hendA hlen hW p
    rw [List.pairwise_cons] at hsorted
    have hs := hdeg s (List.mem_cons_self s rest)
    have hsS := hlS s (List.mem_cons_self s rest)
    have hrestdeg : ∀ t ∈ rest, t.Start ≤ t.End + 1 ∧ t.End < W32 :=
      fun t ht => hdeg t (List.mem_cons_of_mem s ht)
    show (fillPassAux f (stepWalk ⟨si, lS, endA⟩ s) rest
      (fillRange f s (stepWalk ⟨si, lS, endA⟩ s).StartIndex s.Start
        (s.End + 1 - s.Start) arr)).get? p = _
    by_cases hb : s.Start > endA
    · have hlen' : arr.length =
          si + (endA + 1 - lS) + (walkCL endA (s :: rest)).length := by
        rw [tailAddrs, List.length_append, List.length_range'] at hlen
        omega
      have hwalkA : walkCL endA (s :: rest) =
          List.range' s.Start (s.End + 1 - s.Start) ++ walkCL s.End rest := by
        have hw : walkCL endA (s :: rest) =
            (if s.Start > endA then
              List.range' s.Start (s.End + 1 - s.Start) ++ walkCL s.End rest
            else if s.End > endA then
              List.range' (endA + 1) (s.End - endA) ++ walkCL s.End rest
            else walkCL endA rest) := rfl
        rw [hw, if_pos hb]
      have hlenA : arr.length = si + (endA + 1 - lS) +
          ((s.End + 1 - s.Start) + (walkCL s.End rest).length) := by
        rw [hlen', hwalkA, List.length_append, List.length_range']
      have hchunkW : endA + 1 - lS < W32 := by omega
      have hsw : stepWalk ⟨si, lS, endA⟩ s =
          ⟨si + (endA + 1 - lS), s.Start, s.End⟩ := by
        unfold stepWalk
        dsimp only
        rw [if_neg (show ¬s.Start ≤ endA by omega)]
        rw [w32_chunk lS endA hLSe hendA hchunkW]
        rw [w32add_exact si (endA + 1 - lS) (by omega)]
      rw [hsw]
      dsimp only
      have harr2len := fillRange_length f s (s.End + 1 - s.Start)
        (si + (endA + 1 - lS)) s.Start arr
      have hih := ih s.Start s.End (si + (endA + 1 - lS))
        (fillRange f s (si + (endA + 1 - lS)) s.Start (s.End + 1 - s.Start) arr)
        hsorted.2 hsorted.1 hrestdeg (by omega) hs.2
        (by rw [harr2len, tailAddrs, List.length_append, List.length_range']; omega)
        (by rw [harr2len]; exact hW) p
      rw [hih]
      have hfr := fillRange_get f s (s.End + 1 - s.Start)
        (si + (endA + 1 - lS)) s.Start arr p
      by_cases hp3 : si + (endA + 1 - lS) ≤ p
      · rw [if_pos hp3, if_pos (show si ≤ p by omega)]
        have hA : (tailAddrs lS endA (s :: rest)).getD (p - si) 0 =
            (tailAddrs s.Start s.End rest).getD (p - (si + (endA + 1 - lS))) 0 := by
          rw [tailAddrs_getD_shift lS endA s rest hb (p - si) (by omega)]
          have hidx : p - si - (endA + 1 - lS) = p - (si + (endA + 1 - lS)) := by omega
          rw [hidx]
        rw [hA, hfr]
        by_cases hwin : p < si + (endA + 1 - lS) + (s.End + 1 - s.Start)
        · rw [if_pos ⟨hp3, hwin⟩]
          have hA2 : (tailAddrs s.Start s.End rest).getD
              (p - (si + (endA + 1 - lS))) 0 =
              s.Start + (p - (si + (endA + 1 - lS))) :=
            tailAddrs_getD_small s.Start s.End rest _ (by omega)
          rw [hA2]
          have hcov : covers (s.Start + (p - (si + (endA + 1 - lS)))) s = true := by
            simp only [covers, Bool.and_eq_true, decide_eq_true_eq]
            omega
          rw [List.filter_cons, if_pos hcov]
          rcases arr.get? p with _ | e
          · simp
          · simp [List.foldl_cons]
        · rw [if_neg (by omega)]
          rcases harr : arr.get? p with _ | e
          · simp
          · have hplt : p < arr.length := by
              by_contra hcon
              push_neg at hcon
              rw [List.get?_eq_getElem?, List.getElem?_eq_none hcon] at harr
              cases harr
            have hq2 : p - (si + (endA + 1 - lS)) <
                (tailAddrs s.Start s.End rest).length := by
              rw [tailAddrs, List.length_append, List.length_range']
              omega
            have hbig : s.End < (tailAddrs s.Start s.End rest).getD
                (p - (si + (endA + 1 - lS))) 0 :=
              tailAddrs_getD_big s.Start s.End rest
                (fun t ht => (hrestdeg t ht).1) _ (by omega) hq2
            have hcov : ¬(covers ((tailAddrs s.Start s.End rest).getD
                (p - (si + (endA + 1 - lS))) 0) s = true) := by
              simp only [covers, Bool.and_eq_true, decide_eq_true_eq]
              omega
            rw [List.filter_cons, if_neg hcov]
      · rw [if_neg hp3, hfr, if_neg (by omega)]
        by_cases hp1 : si ≤ p
        · rw [if_pos hp1]
          have hA : (tailAddrs lS endA (s :: rest)).getD (p - si) 0 =
              lS + (p - si) :=
            tailAddrs_getD_small lS endA (s :: rest) _ (by omega)
          rw [hA]
          have hnil : (s :: rest).filter (covers (lS + (p - si))) = [] := by
            rw [List.filter_eq_nil_iff]
            intro t ht
            rcases List.mem_cons.mp ht with rfl | ht2
            · simp only [covers, Bool.and_eq_true, decide_eq_true_eq]
              omega
            · have hts := hsorted.1 t ht2
              simp only [covers, Bool.and_eq_true, decide_eq_true_eq]
              omega
          rw [hnil]
          rcases arr.get? p with _ | e
          · simp
          · simp
        · rw [if_neg hp1]
    · have hba : s.Start ≤ endA := by omega
      have hlen' : arr.length =
          si + (endA + 1 - lS) + (walkCL endA (s :: rest)).length := by
        rw [tailAddrs, List.length_append, List.length_range'] at hlen
        omega
      have hwalkBC := walkCL_le s rest endA hb
      have hlenBC : arr.length = si + (endA + 1 - lS) +
          ((max endA s.End - endA) + (walkCL (max endA s.End) rest).length) := by
        rw [hlen', hwalkBC, List.length_append, List.length_range']
      have hsw : stepWalk ⟨si, lS, endA⟩ s =
          ⟨si + (s.Start - lS), s.Start, max endA s.End⟩ := by
        unfold stepWalk
        dsimp only
        rw [if_pos hba]
        rw [w32sub_exact s.Start lS hsS (by omega)]
        rw [w32add_exact si (s.Start - lS) (by omega)]
        have hmax : (if s.End > endA then s.End else endA) = max endA s.End := by
          by_cases h2 : s.End > endA
          · rw [if_pos h2]
            omega
          · rw [if_neg h2]
            omega
        rw [hmax]
      rw [hsw]
      dsimp only
      have harr2len := fillRange_length f s (s.End + 1 - s.Start)
        (si + (s.Start - lS)) s.Start arr
      have hih := ih s.Start (max endA s.End) (si + (s.Start - lS))
        (fillRange f s (si + (s.Start - lS)) s.Start (s.End + 1 - s.Start) arr)
        hsorted.2 hsorted.1 hrestdeg (by omega) (by omega)
        (by rw [harr2len, tailAddrs, List.length_append, List.length_range']; omega)
        (by rw [harr2len]; exact hW) p
      rw [hih]
      have hfr := fillRange_get f s (s.End + 1 - s.Start)
        (si + (s.Start - lS)) s.Start arr p
      by_cases hp3 : si + (s.Start - lS) ≤ p
      · rw [if_pos hp3, if_pos (show si ≤ p by omega)]
        have hA : (tailAddrs lS endA (s :: rest)).getD (p - si) 0 =
            (tailAddrs s.Start (max endA s.End) rest).getD
              (p - (si + (s.Start - lS))) 0 := by
          rw [tailAddrs_getD_shift2 lS endA s rest hb hsS hLSe (p - si) (by omega)]
          have hidx : p - si - (s.Start - lS) = p - (si + (s.Start - lS)) := by omega
          rw [hidx]
        rw [hA, hfr]
        by_cases hwin : p < si + (s.Start - lS) + (s.End + 1 - s.Start)
        · rw [if_pos ⟨hp3, hwin⟩]
          have hA2 : (tailAddrs s.Start (max endA s.End) rest).getD
              (p - (si + (s.Start - lS))) 0 =
              s.Start + (p - (si + (s.Start - lS))) :=
            tailAddrs_getD_small s.Start (max endA s.End) rest _ (by omega)
          rw [hA2]
          have hcov : covers (s.Start + (p - (si + (s.Start - lS)))) s = true := by
            simp only [covers, Bool.and_eq_true, decide_eq_true_eq]
            omega
          rw [List.filter_cons, if_pos hcov]
          rcases arr.get? p with _ | e
          · simp
          · simp [List.foldl_cons]
        · rw [if_neg (by omega)]
          rcases harr : arr.get? p with _ | e
          · simp
          · have hplt : p < arr.length := by
              by_contra hcon
              push_neg at hcon
              rw [List.get?_eq_getElem?, List.getElem?_eq_none hcon] at harr
              cases harr
            have hgt : s.End < (tailAddrs s.Start (max endA s.End) rest).getD
                (p - (si + (s.Start - lS))) 0 := by
              by_cases hq2 : p - (si + (s.Start - lS)) < max endA s.End + 1 - s.Start
              · rw [tailAddrs_getD_small s.Start (max endA s.End) rest _ hq2]
                omega
              · have hq3 : p - (si + (s.Start - lS)) <
                    (tailAddrs s.Start (max endA s.End) rest).length := by
                  rw [tailAddrs, List.length_append, List.length_range']
                  omega
                have hb2 := tailAddrs_getD_big s.Start (max endA s.End) rest
                  (fun t ht => (hrestdeg t ht).1) _ (by omega) hq3
                omega
            have hcov : ¬(covers ((tailAddrs s.Start (max endA s.End) rest).getD
                (p - (si + (s.Start - lS))) 0) s = true) := by
              simp only [covers, Bool.and_eq_true, decide_eq_true_eq]
              omega
            rw [List.filter_cons, if_neg hcov]
      · rw [if_neg hp3, hfr, if_neg (by omega)]
        by_cases hp1 : si ≤ p
        · rw [if_pos hp1]
          have hA : (tailAddrs lS endA (s :: rest)).getD (p - si) 0 =
              lS + (p - si) :=
            tailAddrs_getD_small lS endA (s :: rest) _ (by omega)
          rw [hA]
          have hnil : (s :: rest).filter (covers (lS + (p - si))) = [] := by
            rw [List.filter_eq_nil_iff]
            intro t ht
            rcases List.mem_cons.mp ht with rfl | ht2
            · simp only [covers, Bool.and_eq_true, decide_eq_true_eq]
              omega
            · have hts := hsorted.1 t ht2
              simp only [covers, Bool.and_eq_true, decide_eq_true_eq]
              omega
          rw [hnil]
          rcases arr.get? p with _ | e
          · simp
          · simp
        · rw [if_neg hp1]

theorem fillPass_length (f : Nat → SpanInfo → SpanInfoListEntry → SpanInfoListEntry)
    (spans : List SpanInfo) (arr : List SpanInfoListEntry) :
    (fillPass f spans arr).length = arr.length := by
  match spans with
  | [] => rfl
  | s0 :: rest =>
    show (fillPassAux f ⟨0, s0.Start, s0.End⟩ rest
      (fillRange f s0 0 s0.Start (s0.End + 1 - s0.Start) arr)).length = _
    rw [fillPassAux_length, fillRange_length]

theorem fillPass_get (f : Nat → SpanInfo → SpanInfoListEntry → SpanInfoListEntry)
    (spans : List SpanInfo) (arr : List SpanInfoListEntry)
    (hsorted : spans.Pairwise (fun a b => a.Start ≤ b.Start))
    (hdeg : ∀ s ∈ spans, s.Start ≤ s.End + 1 ∧ s.End < W32)
    (hlen : arr.length = (coveredList spans).length)
    (hW : arr.length < W32) :
    ∀ p : Nat,
      (fillPass f spans arr).get? p =
        (arr.get? p).map (fun e =>
          (spans.filter (covers ((coveredList spans).getD p 0))).foldl
            (fun e t => f ((coveredList spans).getD p 0) t e) e) := by
  match spans with
  | [] =>
    intro p
    show arr.get? p = _
    rcases arr.get? p with _ | e <;> simp
  | s0 :: rest =>
    intro p
    rw [List.pairwise_cons] at hsorted
    have hs0 := hdeg s0 (List.mem_cons_self s0 rest)
    have hrestdeg : ∀ t ∈ rest, t.Start ≤ t.End + 1 ∧ t.End < W32 :=
      fun t ht => hdeg t (List.mem_cons_of_mem s0 ht)
    have hcl : coveredList (s0 :: rest) = tailAddrs s0.Start s0.End rest := rfl
    rw [hcl] at hlen ⊢
    show (fillPassAux f ⟨0, s0.Start, s0.End⟩ rest
      (fillRange f s0 0 s0.Start (s0.End + 1 - s0.Start) arr)).get? p = _
    have harr2len := fillRange_length f s0 (s0.End + 1 - s0.Start) 0 s0.Start arr
    have hgrand := fillPassAux_get f rest s0.Start s0.End 0
      (fillRange f s0 0 s0.Start (s0.End + 1 - s0.Start) arr)
      hsorted.2 hsorted.1 hrestdeg hs0.1 hs0.2
      (by rw [harr2len]; omega) (by rw [harr2len]; exact hW) p
    rw [hgrand, if_pos (Nat.zero_le p)]
    have hfr := fillRange_get f s0 (s0.End + 1 - s0.Start) 0 s0.Start arr p
    rw [hfr]
    have hp0 : p - 0 = p := by omega
    rw [hp0]
    by_cases hwin : p < s0.End + 1 - s0.Start
    · rw [if_pos ⟨Nat.zero_le p, by omega⟩]
      have hA2 : (tailAddrs s0.Start s0.End rest).getD p 0 = s0.Start + p :=
        tailAddrs_getD_small s0.Start s0.End rest p (by omega)
      rw [hA2]
      have hcov : covers (s0.Start + p) s0 = true := by
        simp only [covers, Bool.and_eq_true, decide_eq_true_eq]
        omega
      rw [List.filter_cons, if_pos hcov]
      rcases arr.get? p with _ | e
      · simp
      · simp [List.foldl_cons]
    · rw [if_neg (by omega)]
      rcases harr : arr.get? p with _ | e
      · simp
      · have hplt : p < arr.length := by
          by_contra hcon
          push_neg at hcon
          rw [List.get?_eq_getElem?, List.getElem?_eq_none hcon] at harr
          cases harr
        have hq2 : p < (tailAddrs s0.Start s0.End rest).length := by omega
        have hbig : s0.End < (tailAddrs s0.Start s0.End rest).getD p 0 :=
          tailAddrs_getD_big s0.Start s0.End rest
            (fun t ht => (hrestdeg t ht).1) p (by omega) hq2
        have hcov : ¬(covers ((tailAddrs s0.Start s0.End rest).getD p 0) s0 = true) := by
          simp only [covers, Bool.and_eq_true, decide_eq_true_eq]
          omega
        rw [List.filter_cons, if_neg hcov]

theorem w3fold (a : Nat) (l : List SpanInfo) (hl : l ≠ []) :
    ∀ e : SpanInfoListEntry,
    l.foldl (fun e t => write3 a t e) e =
      { Addr := a, Count := e.Count + l.length, Data := e.Data } := by
  induction l with
  | nil => exact absurd rfl hl
  | cons s l ih =>
    intro e
    rw [List.foldl_cons]
    by_cases hln : l = []
    · subst hln
      simp [write3]
    · rw [ih hln (write3 a s e)]
      simp [write3]
      omega

theorem w5fold_build (a : Nat) :
    ∀ (l d : List SpanInfo), d ≠ [] →
    l.foldl (fun e t => write5 a t e) ⟨a, d.length, d⟩ =
      ⟨a, d.length + l.length, d ++ l⟩ := by
  intro l
  induction l with
  | nil =>
    intro d _
    simp
  | cons s l ih =>
    intro d hd
    rw [List.foldl_cons]
    have hw5 : write5 a s ⟨a, d.length, d⟩ = ⟨a, d.length + 1, d ++ [s]⟩ := by
      rw [write5, if_neg (by simp [hd])]
    rw [hw5]
    have hd1 : d.length + 1 = (d ++ [s]).length := by simp
    rw [hd1, ih (d ++ [s]) (by simp)]
    simp
    omega

theorem w5fold_from0 (a : Nat) (l : List SpanInfo) (hl : l ≠ []) :
    l.foldl (fun e t => write5 a t e) ⟨a, 0, []⟩ = ⟨a, l.length, l⟩ := by
  match l with
  | [] => exact absurd rfl hl
  | s :: l =>
    rw [List.foldl_cons]
    have hw5 : write5 a s ⟨a, 0, []⟩ = ⟨a, 1, [s]⟩ := by
      simp [write5]
    rw [hw5]
    have heq : (⟨a, 1, [s]⟩ : SpanInfoListEntry) = ⟨a, [s].length, [s]⟩ := rfl
    rw [heq, w5fold_build a l [s] (by simp)]
    simp
    omega

theorem w5fold_one (a : Nat) (s : SpanInfo) :
    [s].foldl (fun e t => write5 a t e) ⟨a, 1, []⟩ = ⟨a, 1, [s]⟩ := by
  rw [List.foldl_cons, List.foldl_nil, write5, if_pos ⟨rfl, rfl⟩]

theorem createSpanInfoList_spec (spans : List SpanInfo)
    (hne : spans ≠ [])
    (hsorted : spans.Pairwise (fun a b => a.Start ≤ b.Start))
    (hdeg : ∀ s ∈ spans, s.Start ≤ s.End + 1 ∧ s.End < W32)
    (htot : (coveredList spans).length < W32) :
    (createSpanInfoList spans).Count = (coveredList spans).length ∧
    (createSpanInfoList spans).Entries.length = (coveredList spans).length ∧
    ∀ p, p < (coveredList spans).length →
      (createSpanInfoList spans).Entries.get? p =
        some ⟨(coveredList spans).getD p 0,
          (spans.filter (covers ((coveredList spans).getD p 0))).length,
          spans.filter (covers ((coveredList spans).getD p 0))⟩ := by
  have hcnt : step1Count spans = (coveredList spans).length :=
    step1Count_eq spans hdeg htot
  have hemp : spans.isEmpty = false := by
    rcases spans with _ | ⟨s, l⟩
    · exact absurd rfl hne
    · rfl
  have hcs : createSpanInfoList spans =
      { Count := step1Count spans,
        Entries := fillPass write5 spans
          ((fillPass write3 spans
            (List.replicate (step1Count spans) ⟨0, 0, []⟩)).map write4) } := by
    unfold createSpanInfoList
    rw [hemp]
    rfl
  rw [hcs]
  have hlen0 : (List.replicate (step1Count spans)
      (⟨0, 0, []⟩ : SpanInfoListEntry)).length = (coveredList spans).length := by
    rw [List.length_replicate, hcnt]
  have hlen1 : (fillPass write3 spans
      (List.replicate (step1Count spans) ⟨0, 0, []⟩)).length =
      (coveredList spans).length := by
    rw [fillPass_length, hlen0]
  have hlen2 : ((fillPass write3 spans
      (List.replicate (step1Count spans) ⟨0, 0, []⟩)).map write4).length =
      (coveredList spans).length := by
    rw [List.length_map, hlen1]
  have hlen3 : (fillPass write5 spans
      ((fillPass write3 spans
        (List.replicate (step1Count spans) ⟨0, 0, []⟩)).map write4)).length =
      (coveredList spans).length := by
    rw [fillPass_length, hlen2]
  refine ⟨hcnt, hlen3, ?_⟩
  intro p hp
  have hdeg1 : ∀ s ∈ spans, s.Start ≤ s.End + 1 := fun s hs => (hdeg s hs).1
  have hamem : (coveredList spans).getD p 0 ∈ coveredList spans := by
    rw [List.getD_eq_getElem?_getD, List.getElem?_eq_getElem hp]
    exact List.getElem_mem _
  obtain ⟨t, ht, ht1, ht2⟩ := (coveredList_mem spans hsorted hdeg1 _).mp hamem
  have hcovne : spans.filter (covers ((coveredList spans).getD p 0)) ≠ [] := by
    intro hcon
    rw [List.filter_eq_nil_iff] at hcon
    refine hcon t ht ?_
    simp only [covers, Bool.and_eq_true, decide_eq_true_eq]
    omega
  have hn1 : 0 < (spans.filter (covers ((coveredList spans).getD p 0))).length := by
    rw [List.length_pos]
    exact hcovne
  have hrep : (List.replicate (step1Count spans)
      (⟨0, 0, []⟩ : SpanInfoListEntry)).get? p = some ⟨0, 0, []⟩ := by
    rw [List.get?_eq_getElem?, List.getElem?_replicate, if_pos (by omega)]
  have harr1 : (fillPass write3 spans
      (List.replicate (step1Count spans) ⟨0, 0, []⟩)).get? p =
      some ⟨(coveredList spans).getD p 0,
        (spans.filter (covers ((coveredList spans).getD p 0))).length, []⟩ := by
    rw [fillPass_get write3 spans _ hsorted hdeg hlen0 (by omega) p, hrep]
    rw [Option.map_some']
    rw [w3fold _ _ hcovne]
    simp
  have harr2 : ((fillPass write3 spans
      (List.replicate (step1Count spans) ⟨0, 0, []⟩)).map write4).get? p =
      some (write4 ⟨(coveredList spans).getD p 0,
        (spans.filter (covers ((coveredList spans).getD p 0))).length, []⟩) := by
    rw [List.get?_map, harr1, Option.map_some']
  rw [fillPass_get write5 spans _ hsorted hdeg hlen2 (by omega) p, harr2,
    Option.map_some']
  by_cases hone : (spans.filter (covers ((coveredList spans).getD p 0))).length = 1
  · obtain ⟨s1, hs1⟩ := List.length_eq_one.mp hone
    rw [hone, hs1]
    have hw4 : write4 ⟨(coveredList spans).getD p 0, 1, []⟩ =
        ⟨(coveredList spans).getD p 0, 1, []⟩ := by
      unfold write4
      dsimp only
      rw [if_neg (by omega)]
    rw [hw4, w5fold_one]
  · have hg : 1 < (spans.filter (covers ((coveredList spans).getD p 0))).length := by
      omega
    have hw4 : write4 ⟨(coveredList spans).getD p 0,
        (spans.filter (covers ((coveredList spans).getD p 0))).length, []⟩ =
        ⟨(coveredList spans).getD p 0, 0, []⟩ := by
      unfold write4
      dsimp only
      rw [if_pos hg]
    rw [hw4, w5fold_from0 _ _ hcovne]

theorem findSpanLoop_sound (l : List SpanInfoListEntry) (addr : Nat)
    (e : SpanInfoListEntry) :
    ∀ (fuel : Nat) (lo hi : Int),
    findSpanLoop l addr fuel lo hi = some e →
    e ∈ l ∧ e.Addr = addr := by
  intro fuel
  induction fuel with
  | zero =>
    intro lo hi h
    simp [findSpanLoop] at h
  | succ fuel ih =>
    intro lo hi h
    unfold findSpanLoop at h
    by_cases hlh : lo ≤ hi
    · rw [if_pos hlh] at h
      dsimp only at h
      rcases hcur : l.get? ((lo + hi) / 2).toNat with _ | e2
      · rw [hcur] at h
        cases h
      · simp only [hcur] at h
        by_cases h1 : e2.Addr > addr
        · rw [if_pos h1] at h
          exact ih _ _ h
        · rw [if_neg h1] at h
          by_cases h2 : e2.Addr < addr
          · rw [if_pos h2] at h
            exact ih _ _ h
          · rw [if_neg h2] at h
            cases h
            exact ⟨List.get?_mem hcur, by omega⟩
    · rw [if_neg hlh] at h
      cases h

theorem findSpanLoop_complete (l : List SpanInfoListEntry) (addr : Nat)
    (hsorted : ∀ j < l.length, ∀ i ≤ j,
      (l.getD i entryDefault).Addr ≤ (l.getD j entryDefault).Addr)
    (k : Nat) (hk : k < l.length)
    (hmatch : (l.getD k entryDefault).Addr = addr) :
    ∀ (fuel : Nat) (lo hi : Int),
    0 ≤ lo → hi < (l.length : Int) → hi - lo + 1 ≤ (fuel : Int) →
    lo ≤ (k : Int) → (k : Int) ≤ hi →
    (findSpanLoop l addr fuel lo hi).isSome := by
  intro fuel
  induction fuel with
  | zero =>
    intro lo hi _ _ hfuel hlok hkhi
    omega
  | succ fuel ih =>
    intro lo hi hlo hhi hfuel hlok hkhi
    unfold findSpanLoop
    have hlh : lo ≤ hi := by omega
    rw [if_pos hlh]
    dsimp only
    rcases hcur : l.get? ((lo + hi) / 2).toNat with _ | e2
    · rw [List.get?_eq_none] at hcur
      omega
    · have hcur2 : l[((lo + hi) / 2).toNat]? = some e2 := by
        rw [← List.get?_eq_getElem?]
        exact hcur
      have hgd : l.getD ((lo + hi) / 2).toNat entryDefault = e2 := by
        simp [List.getD, hcur2]
      have hclen : ((lo + hi) / 2).toNat < l.length := by omega
      simp only [hcur]
      by_cases h1 : e2.Addr > addr
      · rw [if_pos h1]
        have hklt : k < ((lo + hi) / 2).toNat := by
          by_contra hcon
          push_neg at hcon
          have := hsorted k hk ((lo + hi) / 2).toNat hcon
          rw [hgd, hmatch] at this
          omega
        exact ih lo ((lo + hi) / 2 - 1) hlo (by omega) (by omega) hlok (by omega)
      · rw [if_neg h1]
        by_cases h2 : e2.Addr < addr
        · rw [if_pos h2]
          have hkgt : ((lo + hi) / 2).toNat < k := by
            by_contra hcon
            push_neg at hcon
            have := hsorted ((lo + hi) / 2).toNat hclen k hcon
            rw [hgd, hmatch] at this
            omega
          exact ih ((lo + hi) / 2 + 1) hi (by omega) hhi (by omega) (by omega) hkhi
        · rw [if_neg h2]
          simp

theorem mem_getD_idx (l : List Nat) (x : Nat) (hmem : x ∈ l) :
    ∃ k < l.length, l.getD k 0 = x := by
  obtain ⟨n, hn⟩ := List.mem_iff_get?.mp hmem
  have hlt : n < l.length := by
    by_contra hcon
    push_neg at hcon
    rw [List.get?_eq_getElem?, List.getElem?_eq_none hcon] at hn
    cases hn
  refine ⟨n, hlt, ?_⟩
  rw [List.get?_eq_getElem?] at hn
  simp [List.getD, hn]

theorem entry_mem_idx (l : List SpanInfoListEntry) (e : SpanInfoListEntry)
    (hmem : e ∈ l) : ∃ k < l.length, l.get? k = some e := by
  obtain ⟨n, hn⟩ := List.mem_iff_get?.mp hmem
  have hlt : n < l.length := by
    by_contra hcon
    push_neg at hcon
    rw [List.get?_eq_getElem?, List.getElem?_eq_none hcon] at hn
    cases hn
  exact ⟨n, hlt, hn⟩

theorem natList_sorted_idx (l : List Nat) (h : l.Pairwise (· < ·)) :
    ∀ j < l.length, ∀ i ≤ j, l.getD i 0 ≤ l.getD j 0 := by
  intro j hj i hij
  rcases Nat.eq_or_lt_of_le hij with rfl | hlt
  · exact le_refl _
  · rw [List.pairwise_iff_get] at h
    have hii : i < l.length := by omega
    have hg := h ⟨i, hii⟩ ⟨j, hj⟩ hlt
    have h1 : l.getD i 0 = l.get ⟨i, hii⟩ := by
      simp [List.getD, List.get?_eq_getElem?, List.getElem?_eq_getElem hii]
    have h2 : l.getD j 0 = l.get ⟨j, hj⟩ := by
      simp [List.getD, List.get?_eq_getElem?, List.getElem?_eq_getElem hj]
    rw [h1, h2]
    omega

/-- Claim C2: in a database whose span-by-address index was built by
`CreateSpanInfoList` from a start-sorted span collection, every address
inside a span's (rebased) `[Start, End]` interval finds that span in the
result of `cc65_spaninfo_byaddr`, and every address covered by no span
yields `none`. -/
theorem c2_span_index_coverage (db : DbgInfo) (spans : List SpanInfo)
    (hdb : db.SpanInfoByAddr = createSpanInfoList spans)
    (hsorted : spans.Pairwise (fun a b => a.Start ≤ b.Start))
    (hdeg : ∀ s ∈ spans, s.Start ≤ s.End + 1 ∧ s.End < W32)
    (htot : (coveredList spans).length < W32) :
    (∀ s ∈ spans, ∀ a : Nat, s.Start ≤ a → a ≤ s.End →
      ∃ res, cc65_spaninfo_byaddr db a = some res ∧ s ∈ res) ∧
    (∀ a : Nat, (∀ s ∈ spans, ¬(s.Start ≤ a ∧ a ≤ s.End)) →
      cc65_spaninfo_byaddr db a = none) := by
  rcases hsp : spans with _ | ⟨s0, rest⟩
  · subst hsp
    constructor
    · intro s hs
      simp at hs
    · intro a _
      rw [cc65_spaninfo_byaddr, hdb]
      rfl
  · rw [← hsp]
    have hne : spans ≠ [] := by
      rw [hsp]
      simp
    clear hsp
    have hdeg1 : ∀ s ∈ spans, s.Start ≤ s.End + 1 := fun s hs => (hdeg s hs).1
    obtain ⟨hcnt, hlen, hspec⟩ := createSpanInfoList_spec spans hne hsorted hdeg htot
    have haddr : ∀ p, p < (coveredList spans).length →
        ((createSpanInfoList spans).Entries.getD p entryDefault).Addr =
        (coveredList spans).getD p 0 := by
      intro p hp
      rw [List.getD_eq_getElem?_getD, ← List.get?_eq_getElem?, hspec p hp]
      rfl
    have hentsort : ∀ j < (createSpanInfoList spans).Entries.length, ∀ i ≤ j,
        ((createSpanInfoList spans).Entries.getD i entryDefault).Addr ≤
        ((createSpanInfoList spans).Entries.getD j entryDefault).Addr := by
      intro j hj i hij
      rw [hlen] at hj
      rw [haddr j hj, haddr i (by omega)]
      exact natList_sorted_idx (coveredList spans)
        (coveredList_pairwise spans hdeg1) j hj i hij
    -- a found entry is the entry of its address, with exactly the coverers
    have hfound : ∀ (a : Nat) (e : SpanInfoListEntry),
        findSpanInfoByAddr (createSpanInfoList spans) a = some e →
        e.Addr = a ∧ a ∈ coveredList spans ∧
        e.Data = spans.filter (covers a) := by
      intro a e hfind
      rw [findSpanInfoByAddr] at hfind
      obtain ⟨hmem, headdr⟩ := findSpanLoop_sound
        (createSpanInfoList spans).Entries a e _ _ _ hfind
      obtain ⟨p, hp, hgetp⟩ := entry_mem_idx _ e hmem
      rw [hlen] at hp
      rw [hspec p hp] at hgetp
      have he : e = ⟨(coveredList spans).getD p 0,
          (spans.filter (covers ((coveredList spans).getD p 0))).length,
          spans.filter (covers ((coveredList spans).getD p 0))⟩ := by
        cases hgetp
        rfl
      have hamem : (coveredList spans).getD p 0 ∈ coveredList spans := by
        rw [List.getD_eq_getElem?_getD, List.getElem?_eq_getElem hp]
        exact List.getElem_mem _
      have haeq : (coveredList spans).getD p 0 = a := by
        rw [he] at headdr
        exact headdr
      refine ⟨headdr, by rw [← haeq]; exact hamem, ?_⟩
      rw [he]
      rw [haeq]
    constructor
    · intro s hs a ha1 ha2
      have hamem : a ∈ coveredList spans :=
        (coveredList_mem spans hsorted hdeg1 a).mpr ⟨s, hs, ha1, ha2⟩
      obtain ⟨k, hk, hgdk⟩ := mem_getD_idx (coveredList spans) a hamem
      have hmk : ((createSpanInfoList spans).Entries.getD k entryDefault).Addr = a := by
        rw [haddr k hk, hgdk]
      have hcomp := findSpanLoop_complete (createSpanInfoList spans).Entries a
        hentsort k (by omega) hmk (createSpanInfoList spans).Count
        0 (((createSpanInfoList spans).Count : Int) - 1)
        (le_refl 0) (by rw [hlen]; rw [hcnt]; omega)
        (by rw [hcnt]; omega) (by omega) (by rw [hcnt]; omega)
      rcases hfind : findSpanInfoByAddr (createSpanInfoList spans) a with _ | e
      · rw [findSpanInfoByAddr] at hfind
        rw [hfind] at hcomp
        simp at hcomp
      · obtain ⟨headdr, _, hdata⟩ := hfound a e hfind
        refine ⟨e.Data, ?_, ?_⟩
        · rw [cc65_spaninfo_byaddr, hdb, hfind]
        · rw [hdata, List.mem_filter]
          refine ⟨hs, ?_⟩
          simp only [covers, Bool.and_eq_true, decide_eq_true_eq]
          omega
    · intro a hnone
      rcases hfind : findSpanInfoByAddr (createSpanInfoList spans) a with _ | e
      · rw [cc65_spaninfo_byaddr, hdb, hfind]
      · obtain ⟨_, hamem, _⟩ := hfound a e hfind
        obtain ⟨t, ht, ht1, ht2⟩ := (coveredList_mem spans hsorted hdeg1 a).mp hamem
        exact absurd ⟨ht1, ht2⟩ (hnone t ht)



/-- Claim C3, witness: on two overlapping spans `[10, 13]` and `[12, 15]`
the step-1 count is 6, the cardinality of `[10, 15]`. -/
theorem c3_witness :
    step1Count ovSpans = (coveredSet ovSpans).card ∧ step1Count ovSpans = 6 :=
  ⟨c3_step1_count_is_covered_card ovSpans (by decide) (by decide) (by decide)
    (by decide), rfl⟩

/-- Claim C2, witness: the coverage statement evaluated on the index built
from the two overlapping fixture spans. -/
theorem c2_witness :
    (∀ s ∈ ovSpans, ∀ a : Nat, s.Start ≤ a → a ≤ s.End →
      ∃ res, cc65_spaninfo_byaddr
        { emptyDbgInfo with SpanInfoByAddr := createSpanInfoList ovSpans } a =
          some res ∧ s ∈ res) ∧
    (∀ a : Nat, (∀ s ∈ ovSpans, ¬(s.Start ≤ a ∧ a ≤ s.End)) →
      cc65_spaninfo_byaddr
        { emptyDbgInfo with SpanInfoByAddr := createSpanInfoList ovSpans } a =
          none) :=
  c2_span_index_coverage
    { emptyDbgInfo with SpanInfoByAddr := createSpanInfoList ovSpans } ovSpans
    rfl (by decide) (by decide) (by decide)
